import Mathlib

/-!
# Verification of the EonMentor analysis pipeline

Shallow embedding of the resilient analysis pipeline of the EonMentor
browser extension: the provider orchestrator (`AIService` and
`EmbeddedAIService`), the analysis request handlers
(`EonMentorServiceWorker.handleExplainText`,
`AdvancedServiceWorker.handleAdvancedExplainText`), the two in-memory
cache tiers (`AdvancedCache`), the content-script transport helpers
(`safeSendMessage`, the persistent-port pending-request machinery, the
reconnect backoff), and the complexity assessment functions of the three
text analyzers.

Modelling conventions:
* JS strings are modelled as Lean `String`s (lengths count characters,
  not UTF-16 code units; no claim depends on astral-plane characters).
* JS numbers are modelled as `ℚ` (exact arithmetic; no claim depends on
  binary floating-point rounding) and integer timestamps as `Nat`.
* A JS `Map` is modelled as an association list in insertion order;
  `Map.set` on an existing key replaces the value in place.
* `async` provider / channel calls are modelled by environments that fix
  each call's outcome (`Except` for calls that can throw).
-/

/-! ## Generic helpers for JS string operations -/

/-- Does `cs` start with `needle` (character-wise)? -/
def charsStartWith : List Char → List Char → Bool
  | _, [] => true
  | [], _ :: _ => false
  | c :: cs, d :: ds => c == d && charsStartWith cs ds

/-- Does `hay` contain `needle` as a contiguous run?  (JS `String.prototype.includes`.) -/
def charsHave : List Char → List Char → Bool
  | [], needle => needle.isEmpty
  | c :: tl, needle => charsStartWith (c :: tl) needle || charsHave tl needle

/-- JS `hay.includes(sub)`. -/
def strHas (hay sub : String) : Bool :=
  charsHave hay.toList sub.toList

/-- JS `toLowerCase` (ASCII case mapping) as a kernel-reducible map. -/
def jsLower (s : String) : String :=
  String.mk (s.data.map Char.toLower)

/-- JS `toUpperCase` (ASCII case mapping) as a kernel-reducible map. -/
def jsUpper (s : String) : String :=
  String.mk (s.data.map Char.toUpper)

/-- JS `String.prototype.trim`. -/
def jsTrim (s : String) : String :=
  String.mk (((s.data.dropWhile Char.isWhitespace).reverse.dropWhile Char.isWhitespace).reverse)

/-- JS `term.charAt(0).toUpperCase() + term.slice(1)`. -/
def jsCapitalize (s : String) : String :=
  match s.data with
  | [] => ""
  | c :: r => String.mk (c.toUpper :: r)

/-- JS `\w` character class: `[A-Za-z0-9_]`. -/
def isWordChar (c : Char) : Bool :=
  c.isAlphanum || c == '_'

/-- Core of JS `String.prototype.split` on a one-character-class regex with `+`:
pieces between maximal runs of separator characters, keeping boundary empties.
Fuel-driven structural recursion (each step consumes at least one character,
so `fuel = cs.length + 1` always suffices) to keep kernel reduction available. -/
def jsSplitCoreF (p : Char → Bool) : Nat → List Char → List Char → List (List Char)
  | _, [], acc => [acc.reverse]
  | 0, _ :: _, acc => [acc.reverse]
  | fuel + 1, c :: rest, acc =>
    if p c then acc.reverse :: jsSplitCoreF p fuel (rest.dropWhile p) []
    else jsSplitCoreF p fuel rest (c :: acc)

/-- Runs `jsSplitCoreF` with sufficient fuel. -/
def jsSplitCore (p : Char → Bool) (cs acc : List Char) : List (List Char) :=
  jsSplitCoreF p (cs.length + 1) cs acc

/-- JS `text.split(/[cls]+/)` for a character class `p`. -/
def jsSplit (p : Char → Bool) (s : String) : List String :=
  (jsSplitCore p s.toList []).map (fun l => String.mk l)

/-- Maximal runs of characters satisfying `isW` (used for `\b\w{3,}\b`-style
matching); fuel-driven like `jsSplitCoreF`. -/
def wordRunsF (isW : Char → Bool) : Nat → List Char → List (List Char)
  | _, [] => []
  | 0, _ :: _ => []
  | fuel + 1, c :: rest =>
    if isW c then (c :: rest.takeWhile isW) :: wordRunsF isW fuel (rest.dropWhile isW)
    else wordRunsF isW fuel rest

/-- Runs `wordRunsF` with sufficient fuel. -/
def wordRuns (isW : Char → Bool) (cs : List Char) : List (List Char) :=
  wordRunsF isW (cs.length + 1) cs

/-- JS `str.replace(/\s+/g, '')`. -/
def stripSpaces (s : String) : String :=
  String.mk (s.toList.filter (fun c => !c.isWhitespace))

/-- First-occurrence deduplication (JS `new Set(...)` iteration order). -/
def firstDedupAux [DecidableEq α] : List α → List α → List α
  | _, [] => []
  | seen, a :: l =>
    if a ∈ seen then firstDedupAux seen l else a :: firstDedupAux (a :: seen) l

/-- First-occurrence deduplication of a list. -/
def firstDedup [DecidableEq α] (l : List α) : List α :=
  firstDedupAux [] l

/-! ## Shared data model -/

/-- The provider identifiers of the orchestrator
(`'chrome-ai' | 'openai' | 'claude' | 'gemini' | 'local'`). -/
inductive Provider
  | chromeAI
  | openai
  | claude
  | gemini
  | localProv
deriving DecidableEq, Repr, Fintype

/-- Embeds the union type `'beginner' | 'intermediate' | 'advanced'`. -/
inductive Complexity
  | beginner
  | intermediate
  | advanced
deriving DecidableEq, Repr

/-- Embeds `AIExplanation` of both AI service layers. -/
structure AIExplanation where
  text : String
  confidence : ℚ
  source : Provider
  complexity : Complexity
deriving DecidableEq, Repr

/-! ## Complexity assessment functions (three implementations)

1. `AdvancedTextAnalyzer.assessComplexity` in
   `packages/shared/src/advanced-analyzer.ts` (token tier counting);
2. `EmbeddedAIService.assessComplexity` in the standalone service worker
   (substring tier scan);
3. the standalone service worker's `AdvancedTextAnalyzer.assessComplexity`
   (average word/sentence length — no vocabulary at all). -/

/-- Embeds `complexityIndicators.beginner` of the shared analyzer. -/
def sharedBeginnerTerms : List String :=
  ["money", "buy", "sell", "price", "cost", "save", "spend", "bank", "loan"]

/-- Embeds `complexityIndicators.intermediate` of the shared analyzer. -/
def sharedIntermediateTerms : List String :=
  ["investment", "portfolio", "dividend", "interest", "mortgage", "credit",
   "debt", "budget", "insurance", "retirement", "stock", "bond"]

/-- Embeds `complexityIndicators.advanced` of the shared analyzer. -/
def sharedAdvancedTerms : List String :=
  ["derivative", "leverage", "arbitrage", "hedging", "volatility", "liquidity",
   "algorithmic", "quantitative", "macroeconomic", "microeconomic", "econometrics"]

/-- Embeds `AdvancedTextAnalyzer.assessComplexity` (shared analyzer, lines 252–266):
count tier hits over the token list, then advanced > 0 ⇒ advanced,
else intermediate > beginner ⇒ intermediate, else beginner. -/
def sharedAssessComplexity (tokens : List String) : Complexity :=
  let counts := tokens.foldl
    (fun (acc : Nat × Nat × Nat) token =>
      (acc.1 + (if sharedBeginnerTerms.contains token then 1 else 0),
       acc.2.1 + (if sharedIntermediateTerms.contains token then 1 else 0),
       acc.2.2 + (if sharedAdvancedTerms.contains token then 1 else 0)))
    (0, 0, 0)
  if counts.2.2 > 0 then .advanced
  else if counts.2.1 > counts.1 then .intermediate
  else .beginner

/-- Modelled from the spec: "presence of any advanced term forces `advanced`;
otherwise intermediate terms outrank beginner terms; otherwise `beginner`"
(three fixed vocabulary tiers, given as the three term lists).  Used as the
reference rule the claim describes, to compare the implementations against. -/
def specTierComplexity (beg inter adv : List String) (tokens : List String) : Complexity :=
  if tokens.any (fun t => adv.contains t) then .advanced
  else if tokens.countP (fun t => inter.contains t) > tokens.countP (fun t => beg.contains t) then
    .intermediate
  else .beginner

/-- Embeds `advancedTerms` of `EmbeddedAIService.assessComplexity`. -/
def embAdvancedTerms : List String :=
  ["derivatives", "arbitrage", "volatility", "beta", "alpha", "correlation"]

/-- Embeds `intermediateTerms` of `EmbeddedAIService.assessComplexity`. -/
def embIntermediateTerms : List String :=
  ["portfolio", "diversification", "compound", "yield", "equity"]

/-- Embeds `EmbeddedAIService.assessComplexity` (standalone service worker, lines 276–288). -/
def embeddedAssessComplexity (text : String) : Complexity :=
  let lowerText := jsLower text
  if embAdvancedTerms.any (fun t => strHas lowerText t) then .advanced
  else if embIntermediateTerms.any (fun t => strHas lowerText t) then .intermediate
  else .beginner

/-- Embeds `complexTerms` of `AIService.assessComplexity` (part_002, lines 644–659). -/
def aisComplexTerms : List String :=
  ["derivatives", "arbitrage", "liquidity", "volatility", "correlation"]

/-- Embeds `intermediateTerms` of `AIService.assessComplexity`. -/
def aisIntermediateTerms : List String :=
  ["portfolio", "dividend", "yield", "margin", "equity"]

/-- Embeds `AIService.assessComplexity` (part_002). -/
def aisAssessComplexity (text : String) : Complexity :=
  let lowerText := jsLower text
  if aisComplexTerms.any (fun t => strHas lowerText t) then .advanced
  else if aisIntermediateTerms.any (fun t => strHas lowerText t) then .intermediate
  else .beginner

/-- Embeds `stopWords` of the standalone service worker's `AdvancedTextAnalyzer`. -/
def swStopWords : List String :=
  ["the", "a", "an", "and", "or", "but", "in", "on", "at", "to", "for", "of",
   "with", "by", "is", "are", "was", "were", "be", "been", "have", "has", "had",
   "do", "does", "did", "will", "would", "could", "should"]

/-- Embeds `AdvancedTextAnalyzer.tokenize` (standalone service worker):
`text.toLowerCase().replace(/[^\w\s]/g, ' ').split(/\s+/)` filtered to
tokens longer than 2 characters that are not stop words. -/
def swTokenize (text : String) : List String :=
  let replaced := (jsLower text).toList.map
    (fun c => if isWordChar c || c.isWhitespace then c else ' ')
  ((jsSplitCore (fun c => c.isWhitespace) replaced []).map (fun l => String.mk l)).filter
    (fun t => t.length > 2 && !(swStopWords.contains t))

/-- Embeds `AdvancedTextAnalyzer.assessComplexity` (standalone service worker,
lines 662–670): average word length / average sentence length thresholds.
(When `tokens` is empty, JS computes `NaN` whose comparisons are all false,
which coincides with `ℚ`'s `0/0 = 0` here: both give `beginner`.) -/
def swAssessComplexity (text : String) (tokens : List String) : Complexity :=
  let avgWordLength : ℚ :=
    ((tokens.foldl (fun s t => s + t.length) 0 : Nat) : ℚ) / (tokens.length : ℚ)
  let sentenceCount : Nat :=
    (jsSplitCore (fun c => c == '.' || c == '!' || c == '?') text.toList []).length
  let avgSentenceLength : ℚ := (tokens.length : ℚ) / (sentenceCount : ℚ)
  if avgWordLength > 6 || avgSentenceLength > 20 then .advanced
  else if avgWordLength > 4 || avgSentenceLength > 12 then .intermediate
  else .beginner

/-! ## `AIService` (part_002): configuration, providers, orchestration loop -/

/-- JS truthiness of an optional API-key string (`!!key`). -/
def truthyKey : Option String → Bool
  | none => false
  | some s => !s.isEmpty

/-- Embeds `AIServiceConfig` (part_002). -/
structure AISConfig where
  openaiApiKey : Option String := none
  claudeApiKey : Option String := none
  geminiApiKey : Option String := none
  preferredProvider : Option Provider := none
  fallbackEnabled : Bool := true
deriving DecidableEq, Repr

instance exceptDecEq [DecidableEq ε] [DecidableEq α] : DecidableEq (Except ε α)
  | .ok a, .ok b =>
    if h : a = b then isTrue (h ▸ rfl) else isFalse (fun hh => h (Except.ok.inj hh))
  | .ok _, .error _ => isFalse (fun h => Except.noConfusion h)
  | .error _, .ok _ => isFalse (fun h => Except.noConfusion h)
  | .error a, .error b =>
    if h : a = b then isTrue (h ▸ rfl) else isFalse (fun hh => h (Except.error.inj hh))

/-- Environment fixing the outcome of each external call of `AIService`:
whether `chrome.ai` is exposed, and the result (or thrown error) of each
remote call. -/
structure AISEnv where
  chromeAIAvailable : Bool
  chromeAICall : Except String String
  openaiCall : Except String String
  claudeCall : Except String String
  geminiCall : Except String String
deriving DecidableEq, Repr

/-- Provider availability as computed by `AIService.initializeProviders`:
a remote provider is available iff its key is truthy, `chrome-ai` iff the
host exposes it, `local` always. -/
def aisAvailable (cfg : AISConfig) (env : AISEnv) : Provider → Bool
  | .chromeAI => env.chromeAIAvailable
  | .openai => truthyKey cfg.openaiApiKey
  | .claude => truthyKey cfg.claudeApiKey
  | .gemini => truthyKey cfg.geminiApiKey
  | .localProv => true

/-- Embeds `AIService.getProviderPriority` (part_002, lines 410–419):
`[preferred, 'chrome-ai', 'openai', 'claude', 'gemini', 'local']` filtered to
the available providers (no deduplication in the source). -/
def getProviderPriority (cfg : AISConfig) (env : AISEnv) : List Provider :=
  let preferred := cfg.preferredProvider.getD .chromeAI
  ([preferred, .chromeAI, .openai, .claude, .gemini, .localProv]).filter
    (fun p => aisAvailable cfg env p)

/-- Keyword list of `AIService.performLocalAnalysis`. -/
def aisFinancialWordList : List String :=
  ["investment", "profit", "loss", "stock", "bond", "dividend", "interest", "rate"]

/-- Result record of `AIService.performLocalAnalysis` (its `sentiment` and
`complexity` fields are the literal strings `'neutral'` / `'intermediate'`). -/
structure AISLocalAnalysis where
  confidence : ℚ
  sentiment : String
  complexity : String
  keyInsights : List String
deriving DecidableEq, Repr

/-- Embeds `AIService.performLocalAnalysis` (part_002, lines 609–621). -/
def performLocalAnalysis (text : String) : AISLocalAnalysis :=
  let words := jsSplit (fun c => c.isWhitespace) (jsLower text)
  let financialWords := words.filter (fun w => aisFinancialWordList.contains w)
  { confidence := min (4/5 : ℚ) ((financialWords.length : ℚ) / ((max 5 words.length : Nat) : ℚ)),
    sentiment := "neutral",
    complexity := "intermediate",
    keyInsights := if financialWords.length > 0 then ["Contains financial terminology"] else ["General text"] }

/-- The `financialTerms` dictionary of `AIService.generateLocalExplanation`
(in source insertion order; the first term contained in the text wins). -/
def aisFinancialTermDefs : List (String × String) :=
  [("interest rate", "The cost of borrowing money, usually expressed as a percentage"),
   ("dividend", "A payment made by companies to their shareholders"),
   ("portfolio", "A collection of investments owned by an investor"),
   ("roi", "Return on Investment - how much profit you make compared to what you invested"),
   ("bull market", "A period when stock prices are rising"),
   ("bear market", "A period when stock prices are falling"),
   ("volatility", "How much the price of an investment goes up and down")]

/-- Embeds `AIService.generateLocalExplanation` (part_002, lines 623–642). -/
def generateLocalExplanation (text : String) (analysis : AISLocalAnalysis) : String :=
  let lowerText := jsLower text
  match aisFinancialTermDefs.find? (fun td => strHas lowerText td.1) with
  | some (term, definition) => jsCapitalize term ++ ": " ++ definition
  | none =>
      "This appears to be " ++ analysis.sentiment ++ " financial content with "
        ++ analysis.complexity ++ " complexity level. "
        ++ String.intercalate " " analysis.keyInsights

/-- Embeds `AIService.useLocalAnalysis` (part_002): always succeeds, tagging the
result `source: 'local'` (the source's `performLocalAnalysis` always returns
the literal complexity `'intermediate'`). -/
def useLocalAnalysisAIS (text : String) : AIExplanation :=
  let analysis := performLocalAnalysis text
  { text := generateLocalExplanation text analysis,
    confidence := analysis.confidence,
    source := .localProv,
    complexity := .intermediate }

/-- Embeds `AIService.callProvider` (part_002, lines 421–441): a remote call either
throws (`.error`) or produces an explanation; `local` is computed locally and
never fails.  (`null` for an unknown provider is unreachable for the typed
provider set but kept in the result type.) -/
def aisCallProvider (cfg : AISConfig) (env : AISEnv) (p : Provider) (text : String) :
    Except String (Option AIExplanation) :=
  match p with
  | .chromeAI =>
    match env.chromeAICall with
    | .error e => .error e
    | .ok t => .ok (some ⟨t, 9/10, .chromeAI, aisAssessComplexity text⟩)
  | .openai =>
    if !truthyKey cfg.openaiApiKey then .error "OpenAI API key not configured"
    else match env.openaiCall with
    | .error e => .error e
    | .ok t => .ok (some ⟨t, 19/20, .openai, aisAssessComplexity text⟩)
  | .claude =>
    if !truthyKey cfg.claudeApiKey then .error "Claude API key not configured"
    else match env.claudeCall with
    | .error e => .error e
    | .ok t => .ok (some ⟨t, 93/100, .claude, aisAssessComplexity text⟩)
  | .gemini =>
    if !truthyKey cfg.geminiApiKey then .error "Gemini API key not configured"
    else match env.geminiCall with
    | .error e => .error e
    | .ok t => .ok (some ⟨t, 91/100, .gemini, aisAssessComplexity text⟩)
  | .localProv => .ok (some (useLocalAnalysisAIS text))

/-- The provider loop of `AIService.explainFinancialText` (part_002,
lines 393–408), instrumented with the list of attempted providers:
on success return; on `null` continue; on a thrown error continue when
`fallbackEnabled`, otherwise rethrow; if the list is exhausted throw
`'All AI providers failed'`. -/
def aisExplainGo (cfg : AISConfig) (env : AISEnv) (text : String) :
    List Provider → Except String AIExplanation × List Provider
  | [] => (.error "All AI providers failed", [])
  | p :: rest =>
    match aisCallProvider cfg env p text with
    | .ok (some r) => (.ok r, [p])
    | .ok none =>
      let next := aisExplainGo cfg env text rest
      (next.1, p :: next.2)
    | .error e =>
      if cfg.fallbackEnabled then
        let next := aisExplainGo cfg env text rest
        (next.1, p :: next.2)
      else (.error e, [p])

/-- Embeds `AIService.explainFinancialText` (part_002): run the loop over the
computed provider priority; also returns the attempted-provider trace. -/
def explainFinancialTextAIS (cfg : AISConfig) (env : AISEnv) (text : String) :
    Except String AIExplanation × List Provider :=
  aisExplainGo cfg env text (getProviderPriority cfg env)

/-! ## `EmbeddedAIService` (standalone service worker, lines 43–289) -/

/-- Embeds `AIServiceConfig` of the embedded service (the stored credential state
read by `loadApiKeys`; `enableCloudAI` is `result.enable_cloud_ai === true`). -/
structure EmbConfig where
  openaiApiKey : Option String := none
  claudeApiKey : Option String := none
  geminiApiKey : Option String := none
  enableCloudAI : Bool := false
deriving DecidableEq, Repr

/-- Environment fixing the outcome of each external call of
`EmbeddedAIService`. -/
structure EmbEnv where
  chromeAIExists : Bool
  chromeAICall : Except String String
  openaiCall : Except String String
  claudeCall : Except String String
  geminiCall : Except String String
deriving DecidableEq, Repr

/-- Embeds `financialKeywords` of `EmbeddedAIService.useLocalAnalysis`. -/
def embFinancialKeywords : List String :=
  ["inflation", "gdp", "interest", "recession", "investment", "portfolio",
   "dividend", "stock", "bond", "market", "profit", "loss", "revenue"]

/-- Embeds `EmbeddedAIService.useLocalAnalysis` (standalone service worker,
lines 250–274): pure keyword scan, always succeeds with `source: 'local'`,
confidence 0.7. -/
def embUseLocalAnalysis (text : String) : AIExplanation :=
  let words := jsSplit (fun c => !isWordChar c) (jsLower text)
  let foundKeywords := words.filter (fun w => embFinancialKeywords.contains w)
  let explanation :=
    if foundKeywords.length > 0 then
      "This text contains financial terms related to: "
        ++ String.intercalate ", " foundKeywords ++ ". "
        ++ "These are important concepts in finance and economics that affect money, investments, and economic conditions."
    else
      "This appears to be general text. While it may contain financial concepts, no specific financial terminology was identified."
  { text := explanation,
    confidence := 7/10,
    source := .localProv,
    complexity := embeddedAssessComplexity text }

/-- Gemini leg of `EmbeddedAIService.explainFinancialText` (try Gemini when a
key is configured, then fall through to local). -/
def embChainGemini (cfg : EmbConfig) (env : EmbEnv) (text : String) :
    AIExplanation × List Provider :=
  if truthyKey cfg.geminiApiKey then
    match env.geminiCall with
    | .ok t => (⟨t, 91/100, .gemini, embeddedAssessComplexity text⟩, [.gemini])
    | .error _ => (embUseLocalAnalysis text, [.gemini, .localProv])
  else (embUseLocalAnalysis text, [.localProv])

/-- Claude leg of `EmbeddedAIService.explainFinancialText`. -/
def embChainClaude (cfg : EmbConfig) (env : EmbEnv) (text : String) :
    AIExplanation × List Provider :=
  if truthyKey cfg.claudeApiKey then
    match env.claudeCall with
    | .ok t => (⟨t, 93/100, .claude, embeddedAssessComplexity text⟩, [.claude])
    | .error _ =>
      let next := embChainGemini cfg env text
      (next.1, .claude :: next.2)
  else embChainGemini cfg env text

/-- OpenAI leg of `EmbeddedAIService.explainFinancialText`. -/
def embChainOpenai (cfg : EmbConfig) (env : EmbEnv) (text : String) :
    AIExplanation × List Provider :=
  if truthyKey cfg.openaiApiKey then
    match env.openaiCall with
    | .ok t => (⟨t, 94/100, .openai, embeddedAssessComplexity text⟩, [.openai])
    | .error _ =>
      let next := embChainClaude cfg env text
      (next.1, .openai :: next.2)
  else embChainClaude cfg env text

/-- Embeds `EmbeddedAIService.explainFinancialText` (standalone service worker,
lines 64–109), instrumented with the attempted providers: try Chrome
built-in AI (errors caught), then — if cloud AI is disabled — go straight to
local, otherwise try each remote provider whose key is configured (errors
caught), and finally fall back to the local analysis.  Every failure path is
caught in the source, so the function is total: it never throws. -/
def embeddedExplainT (cfg : EmbConfig) (env : EmbEnv) (text : String) :
    AIExplanation × List Provider :=
  if env.chromeAIExists then
    match env.chromeAICall with
    | .ok t => (⟨t, 19/20, .chromeAI, embeddedAssessComplexity text⟩, [.chromeAI])
    | .error _ =>
      if !cfg.enableCloudAI then (embUseLocalAnalysis text, [.chromeAI, .localProv])
      else
        let next := embChainOpenai cfg env text
        (next.1, .chromeAI :: next.2)
  else if !cfg.enableCloudAI then (embUseLocalAnalysis text, [.localProv])
  else embChainOpenai cfg env text

/-! ## `EonMentorServiceWorker` (standalone service worker, lines 314–583) -/

/-- A `FinancialTerm` table entry. -/
structure FinTerm where
  term : String
  simple : String
  detail : String
  category : Option String := none
deriving DecidableEq, Repr

/-- Observable side effects of an analysis request (used to state that the
too-short gate fires before any credential load, provider call or cache
access). -/
inductive Effect
  | credentialLoad
  | providerCall (p : Provider)
  | cacheGet
  | cacheSet
deriving DecidableEq, Repr

/-- Embeds `ExplanationResponse` of the standalone service worker. -/
structure ExplanationResponse where
  explanation : String
  terms : List FinTerm
  summary : Option String := none
  confidence : Option ℚ := none
  error : Option String := none
deriving DecidableEq, Repr

/-- Embeds `EonMentorServiceWorker.financialTerms` (15-entry table). -/
def financialTermsTable : List FinTerm :=
  [⟨"Inflation", "Rising prices that reduce buying power", "When average price levels increase over time, making money worth less", some "monetary"⟩,
   ⟨"GDP", "Total value of a country's economic output", "Gross Domestic Product measures all goods and services produced", some "economic"⟩,
   ⟨"Interest Rate", "Cost of borrowing or reward for saving money", "Percentage charged on loans or paid on deposits", some "monetary"⟩,
   ⟨"Fiscal Policy", "Government spending and taxation decisions", "How governments use budgets to influence the economy", some "policy"⟩,
   ⟨"Monetary Policy", "Central bank control of money supply", "Actions by central banks to manage inflation and employment", some "policy"⟩,
   ⟨"Federal Reserve", "The US central bank", "Independent agency that controls American monetary policy", some "institution"⟩,
   ⟨"Stock Market", "Where company shares are bought and sold", "Public exchanges for trading corporate securities", some "markets"⟩,
   ⟨"Recession", "Period of economic decline", "Two consecutive quarters of negative economic growth", some "economic"⟩,
   ⟨"Bull Market", "Period of rising stock prices", "Sustained upward trend in market values", some "markets"⟩,
   ⟨"Bear Market", "Period of falling stock prices", "20% or greater decline from recent highs", some "markets"⟩,
   ⟨"Unemployment Rate", "Percentage of people actively seeking work", "Key indicator of economic health and labor market conditions", some "economic"⟩,
   ⟨"Consumer Price Index", "Measure of inflation based on common purchases", "CPI tracks price changes for typical household goods and services", some "economic"⟩,
   ⟨"Supply and Demand", "Market forces that determine prices", "When supply exceeds demand, prices fall; when demand exceeds supply, prices rise", some "economic"⟩,
   ⟨"Market Cap", "Total value of a company's shares", "Market capitalization = share price Ã— number of shares outstanding", some "markets"⟩,
   ⟨"Dividend", "Cash payment to shareholders", "Portion of company profits distributed to stock owners", some "investments"⟩]

/-- Embeds `EonMentorServiceWorker.getTermSynonyms`. -/
def getTermSynonyms (term : String) : List String :=
  if term = "GDP" then ["gross domestic product", "gdp"]
  else if term = "Federal Reserve" then ["fed", "central bank", "federal reserve"]
  else if term = "Stock Market" then ["stock exchange", "equity market", "share market"]
  else if term = "Interest Rate" then ["interest rates", "borrowing rate", "lending rate"]
  else if term = "Consumer Price Index" then ["cpi", "price index"]
  else if term = "Market Cap" then ["market capitalization", "market value"]
  else []

/-- Keep the first table entry for each term name
(the source's `findIndex`-based duplicate filter). -/
def dedupeByTermName : List String → List FinTerm → List FinTerm
  | _, [] => []
  | seen, t :: l =>
    if t.term ∈ seen then dedupeByTermName seen l
    else t :: dedupeByTermName (t.term :: seen) l

/-- Embeds `EonMentorServiceWorker.findFinancialTerms` (lines 459–478). -/
def findFinancialTerms (text : String) : List FinTerm :=
  let normalizedText := jsLower text
  let found := financialTermsTable.filter (fun term =>
    let variations := [jsLower term.term, stripSpaces (jsLower term.term)] ++ getTermSynonyms term.term
    variations.any (fun v => strHas normalizedText v))
  List.insertionSort
    (fun a b => (a.category.getD "") ≤ (b.category.getD ""))
    (dedupeByTermName [] found)

/-- Embeds `EonMentorServiceWorker.generateSummary` (lines 493–521). -/
def generateSummary (text : String) (maxSentences : Nat) : String :=
  let sentences :=
    ((jsSplitCore (fun c => c == '.' || c == '!' || c == '?') text.toList []).map
      (fun l => jsTrim (String.mk l))).filter (fun s => s.length > 20)
  if sentences.length ≤ maxSentences then
    String.intercalate ". " sentences ++ "."
  else
    let scored := sentences.map (fun sentence =>
      let words := ((wordRuns isWordChar (jsLower sentence).toList).filter
        (fun r => r.length ≥ 3)).map (fun l => String.mk l)
      let raw : ℚ := words.foldl
        (fun acc w =>
          acc + (if financialTermsTable.any (fun ft => strHas (jsLower ft.term) w) then 2 else 0)) 0
      (sentence, raw / ((max words.length 1 : Nat) : ℚ)))
    String.intercalate ". "
      (((List.insertionSort (fun a b => b.2 ≤ a.2) scored).take maxSentences).map (fun x => x.1))
      ++ "."

/-- Embeds `EonMentorServiceWorker.calculateConfidence` (lines 523–538). -/
def calculateConfidence (foundTerms : List FinTerm) (text : String) : ℚ :=
  let base := min ((foundTerms.length : ℚ) * (1/5)) (3/5)
  let lenBonus : ℚ :=
    (if text.length > 100 then 1/10 else 0) + (if text.length > 300 then 1/10 else 0)
  let categories := firstDedup (foundTerms.map (fun t => t.category))
  let catBonus := min ((categories.length : ℚ) * (1/10)) (1/5)
  min (base + lenBonus + catBonus) 1

/-- Embeds `EonMentorServiceWorker.groupTermsByCategory` (lines 565–582). -/
def groupTermsByCategory (foundTerms : List FinTerm) : List String :=
  let categoryName := fun (c : String) =>
    if c = "monetary" then "monetary policy"
    else if c = "economic" then "economic indicators"
    else if c = "policy" then "government policy"
    else if c = "institution" then "financial institutions"
    else if c = "markets" then "financial markets"
    else if c = "investments" then "investments"
    else c
  firstDedup (foundTerms.map (fun t =>
    categoryName (match t.category with
      | none => "general"
      | some c => if c.isEmpty then "general" else c)))

/-- Embeds `EonMentorServiceWorker.generateExplanation` (lines 540–563). -/
def generateExplanation (foundTerms : List FinTerm) (text : String) (confidence : ℚ) : String :=
  if foundTerms.length = 0 then
    "This text (" ++ toString text.length
      ++ " characters) does not contain commonly recognized financial terms. It may discuss general economic concepts or business topics."
  else
    let categories := groupTermsByCategory foundTerms
    let head :=
      "Found " ++ toString foundTerms.length ++ " financial term"
        ++ (if foundTerms.length = 1 then "" else "s") ++ " "
        ++ (if categories.length > 1 then
              "across " ++ toString categories.length ++ " categories: "
                ++ String.intercalate ", " categories ++ "."
            else "related to " ++ categories.headD "" ++ ".")
    head ++
      (if confidence > 7/10 then " This appears to be financial or economic content."
       else if confidence > 2/5 then " This text contains some financial concepts."
       else " Financial terms are present but may not be the main focus.")

/-- Embeds `EonMentorServiceWorker.handleLocalAnalysis` (lines 443–457). -/
def handleLocalAnalysis (text : String) : ExplanationResponse :=
  let foundTerms := findFinancialTerms text
  let summary := if text.length > 150 then some (generateSummary text 2) else none
  let confidence := calculateConfidence foundTerms text
  { explanation := generateExplanation foundTerms text confidence,
    terms := foundTerms,
    summary := summary,
    confidence := some confidence }

/-- Embeds `EonMentorServiceWorker.handleExplainText` (standalone service worker,
lines 400–441), instrumented with the effect trace: texts shorter than 10
characters are rejected immediately (empty effect trace — no credential
load, no provider call); otherwise the API keys are loaded and the embedded
AI service is consulted, falling back to the local analysis when the AI
result's text is empty. -/
def handleExplainText (cfg : EmbConfig) (env : EmbEnv) (text : String) :
    ExplanationResponse × List Effect :=
  if text.isEmpty || text.length < 10 then
    ({ explanation := "", terms := [], error := some "Text too short to analyze" }, [])
  else
    let run := embeddedExplainT cfg env text
    let aiResult := run.1
    let effects := Effect.credentialLoad :: run.2.map Effect.providerCall
    if !aiResult.text.isEmpty then
      ({ explanation := aiResult.text,
         terms := findFinancialTerms text,
         summary := if text.length > 150 then some (generateSummary text 2) else none,
         confidence := some (if aiResult.confidence = 0 then 4/5 else aiResult.confidence) },
       effects)
    else (handleLocalAnalysis text, effects)

/-! ## The standalone service worker's `AdvancedTextAnalyzer` (lines 609–731) -/

/-- Sentiment values. -/
inductive Sentiment
  | positive
  | negative
  | neutral
deriving DecidableEq, Repr

/-- The string form of a sentiment (as interpolated by the source). -/
def Sentiment.str : Sentiment → String
  | .positive => "positive"
  | .negative => "negative"
  | .neutral => "neutral"

/-- Embeds `financialTerms` set of the service worker's analyzer. -/
def swFinancialTermsList : List String :=
  ["investment", "portfolio", "dividend", "equity", "bond", "stock", "share", "market",
   "roi", "return", "profit", "loss", "revenue", "expense", "asset", "liability",
   "debt", "credit", "loan", "mortgage", "interest", "rate", "yield", "compound",
   "inflation", "deflation", "recession", "bull", "bear", "volatility", "risk"]

/-- Embeds `AdvancedTextAnalyzer.calculateFinancialScore`. -/
def swFinancialScore (tokens : List String) : ℚ :=
  let financialTokens := tokens.filter (fun t => swFinancialTermsList.contains t)
  min 1 ((financialTokens.length : ℚ) / ((max 10 tokens.length : Nat) : ℚ))

/-- Embeds `positiveWords` of `AdvancedTextAnalyzer.analyzeSentiment`. -/
def swPositiveWords : List String :=
  ["profit", "gain", "growth", "increase", "up", "rise", "bull", "opportunity", "strong"]

/-- Embeds `negativeWords` of `AdvancedTextAnalyzer.analyzeSentiment`. -/
def swNegativeWords : List String :=
  ["loss", "decline", "decrease", "down", "fall", "bear", "risk", "weak", "crash"]

/-- Embeds `AdvancedTextAnalyzer.analyzeSentiment` (service worker, lines 649–660). -/
def swAnalyzeSentiment (text : String) : Sentiment :=
  let words := jsSplit (fun c => c.isWhitespace) (jsLower text)
  let positiveCount := (words.filter (fun w => swPositiveWords.any (fun p => strHas w p))).length
  let negativeCount := (words.filter (fun w => swNegativeWords.any (fun p => strHas w p))).length
  if positiveCount > negativeCount then .positive
  else if negativeCount > positiveCount then .negative
  else .neutral

/-- A financial entity extracted by the service worker's analyzer
(`type` is `'percentage'` or `'currency'` there). -/
structure SWEntity where
  text : String
  etype : String
  value : ℚ
deriving DecidableEq, Repr

/-- Numeric value of a digit run. -/
def digitsToNat (ds : List Char) : Nat :=
  ds.foldl (fun n c => n * 10 + (c.toNat - 48)) 0

/-- Exact value of `whole.frac` (JS `parseFloat`, modelled exactly in `ℚ`). -/
def decimalToQ (whole frac : List Char) : ℚ :=
  (digitsToNat whole : ℚ) + (digitsToNat frac : ℚ) / ((10 : ℚ) ^ frac.length)

/-- One match attempt of `/(\d+(?:\.\d+)?)%/` at the head of `cs`:
returns the matched text, the numeric value of group 1, and the rest. -/
def pctMatchAt (cs : List Char) : Option (List Char × ℚ × List Char) :=
  let ds := cs.takeWhile Char.isDigit
  if ds.isEmpty then none
  else
    match cs.dropWhile Char.isDigit with
    | '.' :: r2 =>
      let fs := r2.takeWhile Char.isDigit
      if fs.isEmpty then none
      else
        match r2.dropWhile Char.isDigit with
        | '%' :: r3 => some (ds ++ '.' :: fs ++ ['%'], decimalToQ ds fs, r3)
        | _ => none
    | '%' :: r3 => some (ds ++ ['%'], (digitsToNat ds : ℚ), r3)
    | _ => none

/-- Global scan with `/(\d+(?:\.\d+)?)%/g`: try each position left to right,
resuming after each match (fuel-driven; `fuel = cs.length` always suffices as
every step consumes at least one character). -/
def pctScanF : Nat → List Char → List (List Char × ℚ)
  | 0, _ => []
  | _, [] => []
  | fuel + 1, c :: tl =>
    match pctMatchAt (c :: tl) with
    | some (m, v, rest) => (m, v) :: pctScanF fuel rest
    | none => pctScanF fuel tl

/-- Embeds the group `(?:,\d{3})*`: greedily consume comma-separated 3-digit groups. -/
def commaGroupsF : Nat → List Char → List Char × List Char
  | 0, cs => ([], cs)
  | fuel + 1, cs =>
    match cs with
    | ',' :: d1 :: d2 :: d3 :: rest =>
      if d1.isDigit && d2.isDigit && d3.isDigit then
        let next := commaGroupsF fuel rest
        (',' :: d1 :: d2 :: d3 :: next.1, next.2)
      else ([], cs)
    | _ => ([], cs)

/-- One match attempt of `/\$(\d{1,3}(?:,\d{3})*(?:\.\d{2})?)/` at the head of
`cs`; the value strips commas (`parseFloat(match[1].replace(/,/g, ''))`). -/
def curMatchAt (cs : List Char) : Option (List Char × ℚ × List Char) :=
  match cs with
  | '$' :: r1 =>
    let d1 := (r1.takeWhile Char.isDigit).take 3
    if d1.isEmpty then none
    else
      let r2 := r1.drop d1.length
      let groups := commaGroupsF r2.length r2
      let whole := (d1 ++ groups.1).filter (fun c => c != ',')
      match groups.2 with
      | '.' :: f1 :: f2 :: r4 =>
        if f1.isDigit && f2.isDigit then
          some ('$' :: d1 ++ groups.1 ++ ['.', f1, f2], decimalToQ whole [f1, f2], r4)
        else some ('$' :: d1 ++ groups.1, (digitsToNat whole : ℚ), groups.2)
      | _ => some ('$' :: d1 ++ groups.1, (digitsToNat whole : ℚ), groups.2)
  | _ => none

/-- Global scan with the currency regex. -/
def curScanF : Nat → List Char → List (List Char × ℚ)
  | 0, _ => []
  | _, [] => []
  | fuel + 1, c :: tl =>
    match curMatchAt (c :: tl) with
    | some (m, v, rest) => (m, v) :: curScanF fuel rest
    | none => curScanF fuel tl

/-- Embeds `AdvancedTextAnalyzer.extractEntities` (service worker, lines 672–697):
all percentage matches, then all currency matches. -/
def swExtractEntities (text : String) : List SWEntity :=
  let cs := text.toList
  (pctScanF cs.length cs).map (fun mv => ⟨String.mk mv.1, "percentage", mv.2⟩)
    ++ (curScanF cs.length cs).map (fun mv => ⟨String.mk mv.1, "currency", mv.2⟩)

/-- Increment the tally entry of `t` (JS `Map` first-occurrence order). -/
def bumpTally : List (String × Nat) → String → List (String × Nat)
  | [], t => [(t, 1)]
  | (s, n) :: rest, t =>
    if s = t then (s, n + 1) :: rest else (s, n) :: bumpTally rest t

/-- Embeds `AdvancedTextAnalyzer.extractTopics` (service worker, lines 699–712). -/
def swExtractTopics (tokens : List String) : List String :=
  let tally := tokens.foldl
    (fun acc t => if swFinancialTermsList.contains t then bumpTally acc t else acc) []
  ((List.insertionSort (fun a b => b.2 ≤ a.2) tally).take 5).map (fun x => x.1)

/-- Embeds `AdvancedTextAnalyzer.generateInsights` (service worker, lines 714–730). -/
def swGenerateInsights (text : String) (entities : List SWEntity) (sentiment : Sentiment) :
    List String :=
  (if entities.length > 0 then
    ["Found " ++ toString entities.length ++ " financial metrics in the text"] else [])
  ++ (if sentiment ≠ .neutral then
    ["Overall sentiment appears " ++ sentiment.str] else [])
  ++ (if text.length > 200 then
    ["This is a detailed financial text that may require careful analysis"] else [])

/-- Embeds `AnalysisResult` of the service worker's analyzer (its `analyze` never
sets `summary`, so the field stays `none`). -/
structure SWAnalysis where
  confidence : ℚ
  sentiment : Sentiment
  complexity : Complexity
  topics : List String
  entities : List SWEntity
  summary : Option String := none
  keyInsights : List String
deriving DecidableEq, Repr

/-- Embeds `AdvancedTextAnalyzer.analyze` (service worker, lines 619–635). -/
def swAnalyze (text : String) : SWAnalysis :=
  let tokens := swTokenize text
  let financialScore := swFinancialScore tokens
  let sentiment := swAnalyzeSentiment text
  let complexity := swAssessComplexity text tokens
  let entities := swExtractEntities text
  let topics := swExtractTopics tokens
  { confidence := min (19/20 : ℚ) (3/5 + financialScore * (7/20)),
    sentiment := sentiment,
    complexity := complexity,
    topics := topics,
    entities := entities,
    keyInsights := swGenerateInsights text entities sentiment }

/-! ## The standalone service worker's `AdvancedCache` (lines 734–789) and
`AdvancedServiceWorker` (lines 812–1064)

The mojibake characters in the string constants below reproduce the bytes of
the source file.  JS decimal number formatting is not reproduced: interpolated
numbers are printed with Lean's `toString` (no claim depends on it). -/

/-- An entry of the service worker's in-memory cache
(`{ data, timestamp, ttl }`). -/
structure SWCacheItem (V : Type) where
  data : V
  timestamp : Nat
  ttl : Nat
deriving DecidableEq, Repr

/-- JS `Map.set`: replace in place when the key exists, else append. -/
def mapSetAssoc [DecidableEq κ] (m : List (κ × β)) (k : κ) (v : β) : List (κ × β) :=
  if m.any (fun p => decide (p.1 = k)) then
    m.map (fun p => if p.1 = k then (k, v) else p)
  else m ++ [(k, v)]

/-- Embeds `AdvancedCache.get` (service worker, lines 738–751): memory hit if the
entry is younger than its TTL, expired entries are removed on read. -/
def swCacheGet (c : List (String × SWCacheItem V)) (key : String) (now : Nat) :
    Option V × List (String × SWCacheItem V) :=
  match c.find? (fun p => decide (p.1 = key)) with
  | some (_, item) =>
    if now - item.timestamp < item.ttl then (some item.data, c)
    else (none, c.filter (fun p => !decide (p.1 = key)))
  | none => (none, c)

/-- Delete the entry of the first key in `Map` insertion order
(`this.memoryCache.keys().next().value`), skipped when that key is falsy
(`if (oldestKey)`), i.e. the empty string. -/
def swEvictFirst (c1 : List (String × SWCacheItem V)) : List (String × SWCacheItem V) :=
  match c1 with
  | [] => []
  | (k0, it0) :: rest =>
    if k0.isEmpty then (k0, it0) :: rest
    else ((k0, it0) :: rest).filter (fun p => !decide (p.1 = k0))

/-- Embeds `AdvancedCache.set` (service worker, lines 753–768): insert, then if the
size exceeds `maxMemorySize = 100` delete the first key in `Map` insertion
order. -/
def swCacheSet (c : List (String × SWCacheItem V)) (k : String) (v : V) (ttl now : Nat) :
    List (String × SWCacheItem V) :=
  let c1 := mapSetAssoc c k ⟨v, now, ttl⟩
  if c1.length > 100 then swEvictFirst c1 else c1

/-- A sequence of `set` operations `(key, value, ttl, now)` applied to the
service worker cache. -/
def swApplySets (ops : List (String × V × Nat × Nat)) : List (String × SWCacheItem V) :=
  ops.foldl (fun c op => swCacheSet c op.1 op.2.1 op.2.2.1 op.2.2.2) []

/-- Signed 32-bit wrap-around (JS bitwise coercion `ToInt32`). -/
def wrap32 (x : Int) : Int :=
  ((x + 2 ^ 31) % 2 ^ 32) - 2 ^ 31

/-- Embeds `AdvancedServiceWorker.simpleHash` (lines 949–957):
`hash = ((hash << 5) - hash) + charCode` in 32-bit arithmetic, then
`Math.abs(hash).toString(16)`. -/
def simpleHash (s : String) : String :=
  let h := s.toList.foldl (fun (hash : Int) c => wrap32 (wrap32 (hash * 32) - hash + c.toNat)) 0
  String.mk (Nat.toDigits 16 h.natAbs)

/-- Embeds `AdvancedServiceWorker.generateCacheKey` (lines 943–947). -/
def generateCacheKey (text : String) (analysisLevel : String) : String :=
  "analysis_" ++ analysisLevel ++ "_" ++ simpleHash (jsTrim (jsLower text))

/-- Embeds `AdvancedServiceWorker.getCacheTTL` (lines 959–964):
`Math.floor(30min * (1 + confidence))`. -/
def getCacheTTL (confidence : ℚ) : Nat :=
  (⌊(1800000 : ℚ) * (1 + confidence)⌋).toNat

def advHeaderPre : String := "ðŸ§  **Advanced Financial Analysis** ("
def advHeaderPost : String := "% confidence)"
def advLevelPre : String := "ðŸ“Š "
def advSentPre : String := "ðŸ’­ "
def advJoin : String := " â€¢ "
def advTopicsPre : String := "\nðŸŽ¯ **Key Topics:** "
def advDataFound : String := "\nðŸ’° **Financial Data Found:**"
def advBullet : String := "â€¢ "
def advSummaryPre : String := "\nðŸ“ **Smart Summary:**\n"
def advInsightsHeader : String := "\nðŸ’¡ **Key Insights:**"
def advStatsPre : String := "\nðŸ“– **Text Stats:** "
def advStatsMid : String := " â€¢ ~"
def adviceBeginner : String := "\nðŸŽ“ **For Beginners:** This content covers fundamental financial concepts. Great starting point!"
def adviceInter : String := "\nðŸ“ˆ **Intermediate Level:** Requires basic financial knowledge. Consider reviewing key terms if unfamiliar."
def adviceAdvanced : String := "\nðŸŽ¯ **Advanced Content:** Complex financial concepts discussed. May require specialized knowledge."

/-- Embeds `analysis.complexity.toUpperCase()`. -/
def Complexity.upper : Complexity → String
  | .beginner => "BEGINNER"
  | .intermediate => "INTERMEDIATE"
  | .advanced => "ADVANCED"

/-- Embeds `analysis.sentiment.toUpperCase()`. -/
def Sentiment.upper : Sentiment → String
  | .positive => "POSITIVE"
  | .negative => "NEGATIVE"
  | .neutral => "NEUTRAL"

/-- Embeds `AdvancedServiceWorker.getComplexityAdvice` (lines 1017–1025). -/
def getComplexityAdvice : Complexity → String
  | .beginner => adviceBeginner
  | .intermediate => adviceInter
  | .advanced => adviceAdvanced

/-- Embeds `AdvancedServiceWorker.generateAdvancedExplanation` (lines 966–1015). -/
def generateAdvancedExplanation (analysis : SWAnalysis) (originalText : String) : String :=
  let wordCount := (jsSplit (fun c => c.isWhitespace) originalText).length
  let readingTime := (wordCount + 199) / 200
  let parts : List String :=
    [advHeaderPre ++ toString (round (analysis.confidence * 100)) ++ advHeaderPost,
     advLevelPre ++ analysis.complexity.upper ++ " level" ++ advJoin
       ++ advSentPre ++ analysis.sentiment.upper ++ " sentiment"]
    ++ (if analysis.topics.length > 0 then
          [advTopicsPre ++ String.intercalate ", " analysis.topics] else [])
    ++ (if analysis.entities.length > 0 then
          advDataFound :: analysis.entities.map (fun e =>
            advBullet ++ e.text
              ++ (if e.value ≠ 0 then " (" ++ toString e.value ++ ")" else "")
              ++ " [" ++ jsUpper e.etype ++ "]")
        else [])
    ++ (match analysis.summary with
        | some s => [advSummaryPre ++ s]
        | none => [])
    ++ (if analysis.keyInsights.length > 0 then
          advInsightsHeader :: analysis.keyInsights.map (fun i => advBullet ++ i) else [])
    ++ [getComplexityAdvice analysis.complexity]
    ++ [advStatsPre ++ toString wordCount ++ " words" ++ advStatsMid
          ++ toString readingTime ++ " min read"]
  String.intercalate "\n" parts

/-- Embeds `AdvancedExplanationResponse` (wall-clock `processingTime` is real-time
behaviour and is not modelled). -/
structure AdvResponse where
  explanation : String
  analysis : Option SWAnalysis := none
  cached : Option Bool := none
  error : Option String := none
deriving DecidableEq, Repr

/-- Embeds `AdvancedServiceWorker.handleAdvancedExplainText` (lines 877–941),
instrumented with the effect trace and threading the cache state: texts
shorter than 10 characters are rejected before the cache key is computed and
before any cache access; otherwise the cache is consulted (unless
`forceRefresh`), and on a miss the analyzer runs and the result is cached
with a confidence-scaled TTL. -/
def handleAdvancedExplainText (text : String) (forceRefresh : Bool) (analysisLevel : String)
    (cacheSt : List (String × SWCacheItem AdvResponse)) (now : Nat) :
    AdvResponse × List Effect × List (String × SWCacheItem AdvResponse) :=
  if text.isEmpty || text.length < 10 then
    ({ explanation := "Text too short for meaningful analysis (minimum 10 characters)" },
     [], cacheSt)
  else
    let cacheKey := generateCacheKey text analysisLevel
    let readEffects : List Effect := if forceRefresh then [] else [.cacheGet]
    let read := if forceRefresh then (none, cacheSt) else swCacheGet cacheSt cacheKey now
    match read with
    | (some cachedResult, cacheSt1) =>
      ({ cachedResult with cached := some true }, readEffects, cacheSt1)
    | (none, cacheSt1) =>
      let analysis := swAnalyze text
      let result : AdvResponse :=
        { explanation := generateAdvancedExplanation analysis text,
          analysis := some analysis,
          cached := some false }
      (result, readEffects ++ [.cacheSet],
       swCacheSet cacheSt1 cacheKey result (getCacheTTL analysis.confidence) now)

/-! ## The two-tier `AdvancedCache` of part_002 (memory tier, lines 15–198) -/

/-- Embeds `CacheEntry` (part_002): the spec's `lastAccessedAt` is the source's
`lastAccessed`, `createdAt` is `timestamp`. -/
structure CEntry (V : Type) where
  key : String
  value : V
  timestamp : Nat
  expiresAt : Nat
  accessCount : Nat
  lastAccessed : Nat
deriving DecidableEq, Repr

instance lruDecRel (V : Type) :
    DecidableRel (fun (a b : CEntry V) => a.lastAccessed ≤ b.lastAccessed) :=
  fun a b => Nat.decLe a.lastAccessed b.lastAccessed

instance lruTotal (V : Type) :
    IsTotal (CEntry V) (fun a b => a.lastAccessed ≤ b.lastAccessed) :=
  ⟨fun a b => Nat.le_total a.lastAccessed b.lastAccessed⟩

instance lruTrans (V : Type) :
    IsTrans (CEntry V) (fun a b => a.lastAccessed ≤ b.lastAccessed) :=
  ⟨fun _ _ _ h h2 => Nat.le_trans h h2⟩

/-- Embeds `maxMemorySize` of part_002's `AdvancedCache`. -/
def maxMemorySize : Nat := 100

/-- Embeds `defaultTTL` (1 hour in ms). -/
def defaultTTL : Nat := 3600000

/-- Embeds `Map.set(key, entry)` for the memory tier (entries carry their key). -/
def memMapSet (m : List (CEntry V)) (e : CEntry V) : List (CEntry V) :=
  if m.any (fun x => decide (x.key = e.key)) then
    m.map (fun x => if x.key = e.key then e else x)
  else m ++ [e]

/-- Embeds `AdvancedCache.enforceMemoryLimit` (part_002, lines 189–198): when over
the bound, sort the entries by `lastAccessed` ascending (JS stable sort;
Mathlib's `insertionSort` may break ties differently, which no stated
property depends on), take the `size - maxMemorySize` least recently
accessed as `toRemove`, and delete them by key.  Returns the new tier
content and the `toRemove` list. -/
def enforceMemoryLimit (m : List (CEntry V)) : List (CEntry V) × List (CEntry V) :=
  if m.length ≤ maxMemorySize then (m, [])
  else
    let sorted := List.insertionSort (fun a b => a.lastAccessed ≤ b.lastAccessed) m
    let toRemove := sorted.take (m.length - maxMemorySize)
    let removedKeys := toRemove.map (fun e => e.key)
    (m.filter (fun e => !removedKeys.contains e.key), toRemove)

/-- The memory-tier part of `AdvancedCache.set` (part_002, lines 85–105):
build a fresh entry (`accessCount 0`, `lastAccessed = now`,
`expiresAt = now + (ttl || defaultTTL)`), insert it, then enforce the bound.
Returns the new tier content together with the evicted entries. -/
def cacheSetMem (m : List (CEntry V)) (key : String) (v : V) (ttl : Option Nat) (now : Nat) :
    List (CEntry V) × List (CEntry V) :=
  let effTTL := match ttl with
    | some t => if t = 0 then defaultTTL else t
    | none => defaultTTL
  enforceMemoryLimit (memMapSet m ⟨key, v, now, now + effTTL, 0, now⟩)

/-- A sequence of `set(key, value, ttl)` operations at given times, applied
to an initially empty memory tier. -/
def applyCacheSets (ops : List (String × V × Option Nat × Nat)) : List (CEntry V) :=
  ops.foldl (fun m op => (cacheSetMem m op.1 op.2.1 op.2.2.1 op.2.2.2).1) []

/-! ## Content script (part_003): selection gate, one-shot messaging,
persistent-port correlation, reconnect backoff -/

/-- Embeds `MIN_SELECTION_LENGTH` (part_003, line 55). -/
def MIN_SELECTION_LENGTH : Nat := 8

/-- The length gate of `handleSelectionChange` (part_003, lines 405–421):
the trimmed selection is accepted (button shown, text recorded for sending)
iff its length is at least `MIN_SELECTION_LENGTH`. -/
def selectionAccepted (selection : String) : Bool :=
  decide ((jsTrim selection).length ≥ MIN_SELECTION_LENGTH)

/-- Outcome of one `chrome.runtime.sendMessage` attempt as observed by
`safeSendMessage`: the runtime may be missing, the callback may see a
`lastError`, a (possibly empty) response may arrive, or the send itself may
throw. -/
inductive SendOutcome
  | runtimeUnavailable
  | lastError (msg : String)
  | response (r : Option ExplanationResponse)
  | threw
deriving DecidableEq, Repr

/-- Environment fixing the outcomes of the first and second send attempts. -/
structure SafeSendEnv where
  first : SendOutcome
  second : SendOutcome
deriving DecidableEq, Repr

/-- Actions performed by `safeSendMessage`. -/
inductive SendAction
  | attempt (n : Nat)
  | ping
  | wait (ms : Nat)
deriving DecidableEq, Repr

/-- How one attempt of `safeSendMessage` resolves for a given outcome, when
no retry applies (part_003, lines 61–113). -/
def attemptResolve (o : SendOutcome) : ExplanationResponse :=
  match o with
  | .runtimeUnavailable =>
    { explanation := "", terms := [],
      error := some "Extension runtime not available. Please reload the page." }
  | .lastError _ =>
    { explanation := "", terms := [],
      error := some "Failed to analyze text. Please refresh the page." }
  | .response (some r) => r
  | .response none =>
    { explanation := "No explanation available", terms := [],
      error := some "Empty response from service worker" }
  | .threw =>
    { explanation := "", terms := [],
      error := some "Unexpected error communicating with extension background." }

/-- Embeds `EonMentorContentScript.safeSendMessage` (part_003, lines 61–113): only
when the first attempt's `lastError` message contains
`'Extension context invalidated'` does the caller ping, wait 150 ms, and
retry exactly once; the second attempt's outcome is final (its retry
condition `tryNum === 1` is false). -/
def safeSendMessage (env : SafeSendEnv) : ExplanationResponse × List SendAction :=
  match env.first with
  | .lastError m =>
    if strHas m "Extension context invalidated" then
      (attemptResolve env.second, [.attempt 1, .ping, .wait 150, .attempt 2])
    else (attemptResolve (.lastError m), [.attempt 1])
  | o => (attemptResolve o, [.attempt 1])

/-- Events seen by the content script's persistent-port machinery:
`sendPortMessage` registering a fresh pending entry, a port message carrying
a correlation id and payload, a pending entry's timeout timer firing, and a
port disconnect. -/
inductive PortEv
  | send (cid : Nat)
  | response (cid : Nat) (payload : Nat)
  | timerFire (cid : Nat)
  | disconnect
deriving DecidableEq, Repr

/-- How a pending request was resolved. -/
inductive ResKind
  | answered (payload : Nat)
  | timedOut
  | disconnected
deriving DecidableEq, Repr

/-- Caller-side transport state: the pending-request map (as the list of
pending correlation ids, in insertion order — each holds its own resolve
callback and timer) plus the chronological log of resolutions. -/
structure PortState where
  pending : List Nat
  log : List (Nat × ResKind)
deriving DecidableEq, Repr

/-- One step of the port machinery (part_003):
* `send` (lines 214–240): record the pending entry (a `Map.set`; a duplicate
  correlation id would overwrite silently);
* `response` (lines 181–189): if the id is pending, clear its timer, delete
  it and resolve with the payload; unmatched ids are dropped;
* `timerFire` (lines 224–227): the timer exists only while the entry is
  pending (every removal clears it), so an armed timer deletes the entry and
  rejects with a timeout;
* `disconnect` (lines 191–204): clear every timer, reject every pending
  entry and empty the map. -/
def portMsgStep (st : PortState) : PortEv → PortState
  | .send cid =>
    if cid ∈ st.pending then st else { st with pending := st.pending ++ [cid] }
  | .response cid p =>
    if cid ∈ st.pending then
      { pending := st.pending.erase cid, log := st.log ++ [(cid, .answered p)] }
    else st
  | .timerFire cid =>
    if cid ∈ st.pending then
      { pending := st.pending.erase cid, log := st.log ++ [(cid, .timedOut)] }
    else st
  | .disconnect =>
    { pending := [], log := st.log ++ st.pending.map (fun c => (c, .disconnected)) }

/-- Run the port machinery from the initial state. -/
def runPort (evs : List PortEv) : PortState :=
  evs.foldl portMsgStep ⟨[], []⟩

/-- The correlation ids of the `send` events of a trace. -/
def sendsOf (evs : List PortEv) : List Nat :=
  evs.filterMap (fun e => match e with | .send c => some c | _ => none)

/-- How many resolutions a given correlation id received. -/
def resCount (c : Nat) (log : List (Nat × ResKind)) : Nat :=
  log.countP (fun e => decide (e.1 = c))

/-- Channel events of the reconnect backoff (part_003, lines 170–211). -/
inductive ChannelEvent
  | connect
  | disconnect
deriving DecidableEq, Repr

/-- Backoff update: a successful connect resets `portBackoff` to 250 (line
179); a disconnect doubles it, capped at `maxPortBackoff = 4000` (line 202),
after reading the current value as the reconnect delay (line 201). -/
def backoffStep (b : Nat) : ChannelEvent → Nat
  | .connect => 250
  | .disconnect => min (b * 2) 4000

/-- The backoff value after a sequence of channel events (initially 250,
line 51).  The delay used by the disconnect occurring after a prefix `pre`
of events is `runBackoff pre`. -/
def runBackoff (evs : List ChannelEvent) : Nat :=
  evs.foldl backoffStep 250

/-! ## Concrete scenario constants used by counterexamples and witnesses -/

/-- A text whose tokens are long but contain no tier vocabulary at all. -/
def c4Text : String :=
  "Extraordinary considerations regarding organizational restructuring"

/-- Two concurrent requests whose responses arrive in reverse order. -/
def c6Demo : List PortEv :=
  [.send 1, .send 2, .response 2 20, .response 1 10]

/-- The default `AIService` configuration (`{ fallbackEnabled: true }`,
no preferred provider ⇒ `'chrome-ai'`). -/
def c3Cfg : AISConfig := {}

/-- An environment where the host exposes `chrome.ai` but the Chrome AI call
fails, and no remote key is configured. -/
def c3Env : AISEnv :=
  ⟨true, .error "chrome-ai failed", .error "unused", .error "unused", .error "unused"⟩

/-- Invariant of the port machinery along a processed trace `evs`:
pending ids are distinct and unresolved; ids sent but no longer pending have
been resolved exactly once; never-sent ids have no resolutions; every
`answered` log entry comes from a matching response event. -/
def portInv (evs : List PortEv) (st : PortState) : Prop :=
  st.pending.Nodup
  ∧ (∀ c ∈ st.pending, c ∈ sendsOf evs)
  ∧ (∀ c ∈ st.pending, resCount c st.log = 0)
  ∧ (∀ c, c ∈ sendsOf evs → c ∉ st.pending → resCount c st.log = 1)
  ∧ (∀ c, c ∉ sendsOf evs → resCount c st.log = 0)
  ∧ (∀ c p, (c, ResKind.answered p) ∈ st.log → PortEv.response c p ∈ evs)

/-! ## Theorems

The `Rat` arithmetic operations are `@[irreducible]` in the ambient library;
they are restored to their normal reducibility here so that concrete
witnesses evaluate by `decide`. -/

section MainTheorems

set_option allowUnsafeReducibility true

attribute [local semireducible] Rat.add Rat.mul Rat.inv Rat.sub Rat.div Rat.ofScientific

/-- Backoff after appending one event. -/
theorem runBackoff_append (pre : List ChannelEvent) (e : ChannelEvent) :
    runBackoff (pre ++ [e]) = backoffStep (runBackoff pre) e := by
  simp [runBackoff, List.foldl_append]

/-- The backoff value stays within `[250, 4000]`. -/
theorem backoff_bound_aux :
    ∀ (evs : List ChannelEvent) (b : Nat), 250 ≤ b → b ≤ 4000 →
      250 ≤ List.foldl backoffStep b evs ∧ List.foldl backoffStep b evs ≤ 4000 := by
  intro evs
  induction evs with
  | nil => intro b h1 h2; exact ⟨h1, h2⟩
  | cons e rest ih =>
    intro b h1 h2
    cases e with
    | connect => exact ih 250 (by omega) (by omega)
    | disconnect =>
      refine ih (min (b * 2) 4000) ?_ ?_ <;> omega

/-- C7: along every sequence of connect/disconnect events, every reconnect
delay (the backoff value read by a disconnect) lies in `[250, 4000]`; the
delay of a disconnect immediately following another disconnect is the
previous delay doubled and capped at 4000 ms (hence non-decreasing); and a
disconnect immediately following a successful connect uses the floor delay
of 250 ms. -/
theorem c7_reconnect_backoff :
    (∀ evs : List ChannelEvent, 250 ≤ runBackoff evs ∧ runBackoff evs ≤ 4000)
    ∧ (∀ pre : List ChannelEvent,
        runBackoff (pre ++ [ChannelEvent.disconnect])
            = min (runBackoff pre * 2) 4000
        ∧ runBackoff pre ≤ runBackoff (pre ++ [ChannelEvent.disconnect]))
    ∧ (∀ pre : List ChannelEvent, runBackoff (pre ++ [ChannelEvent.connect]) = 250) := by
  refine ⟨fun evs => backoff_bound_aux evs 250 (by omega) (by omega), fun pre => ?_, fun pre => ?_⟩
  · have hb := backoff_bound_aux pre 250 (by omega) (by omega)
    rw [runBackoff_append]
    refine ⟨rfl, ?_⟩
    simp only [runBackoff, backoffStep] at *
    omega
  · rw [runBackoff_append]
    rfl

/-- C3 counterexample: under the default configuration (no preferred
provider, so `'chrome-ai'`), with `chrome.ai` exposed and no remote key
configured, the computed priority list contains `'chrome-ai'` twice — the
claim's "each provider at most once" is false — and when the Chrome AI call
fails with fallback enabled, `'chrome-ai'` is attempted twice, so the
duplicate does not collapse to a single attempt. -/
theorem c3_counterexample :
    (getProviderPriority c3Cfg c3Env).count Provider.chromeAI = 2
    ∧ (explainFinancialTextAIS c3Cfg c3Env "short text").2
        = [Provider.chromeAI, Provider.chromeAI, Provider.localProv] :=
  ⟨by decide, by decide⟩

/-- C3 (amended): the priority list is the preferred provider followed by
the fixed fallback order, filtered to available providers, without
deduplication: every provider other than the preferred appears at most
once, and no provider appears more than twice. -/
theorem c3_amended_priority_multiplicity :
    ∀ (cfg : AISConfig) (env : AISEnv) (p : Provider),
      (getProviderPriority cfg env).count p ≤ 2
      ∧ (p ≠ cfg.preferredProvider.getD Provider.chromeAI →
          (getProviderPriority cfg env).count p ≤ 1) := by
  intro cfg env p
  have hsub : (getProviderPriority cfg env).Sublist
      [cfg.preferredProvider.getD Provider.chromeAI, Provider.chromeAI, Provider.openai,
       Provider.claude, Provider.gemini, Provider.localProv] := by
    simp only [getProviderPriority]
    exact List.filter_sublist _
  have hbase : ∀ (pref q : Provider),
      (List.count q [pref, Provider.chromeAI, Provider.openai, Provider.claude,
        Provider.gemini, Provider.localProv] ≤ 2)
      ∧ (q ≠ pref →
          List.count q [pref, Provider.chromeAI, Provider.openai, Provider.claude,
            Provider.gemini, Provider.localProv] ≤ 1) := by decide
  constructor
  · exact le_trans (hsub.count_le p) (hbase _ p).1
  · intro hne
    exact le_trans (hsub.count_le p) ((hbase _ p).2 hne)

/-- Witness for the amended C3 theorem at a concrete configuration. -/
theorem c3_amended_witness :
    (getProviderPriority c3Cfg c3Env).count Provider.openai ≤ 1 :=
  (c3_amended_priority_multiplicity c3Cfg c3Env Provider.openai).2 (by decide)

/-- C8: if the one-shot send's first attempt reports an "Extension context
invalidated" `lastError`, `safeSendMessage` pings, waits 150 ms and retries
exactly once (action trace `[attempt 1, ping, wait 150, attempt 2]`, no
third attempt); if the second attempt also fails with a `lastError`, the
call resolves to the transport-error response. -/
theorem c8_context_invalidated_retry :
    ∀ (env : SafeSendEnv) (m : String),
      env.first = SendOutcome.lastError m →
      strHas m "Extension context invalidated" = true →
      (safeSendMessage env).2 = [SendAction.attempt 1, SendAction.ping,
        SendAction.wait 150, SendAction.attempt 2]
      ∧ (∀ m2, env.second = SendOutcome.lastError m2 →
          (safeSendMessage env).1.error
            = some "Failed to analyze text. Please refresh the page.") := by
  intro env m h1 h2
  constructor
  · simp [safeSendMessage, h1, h2]
  · intro m2 hm2
    simp [safeSendMessage, h1, h2, hm2, attemptResolve]

/-- Witness for C8 at a concrete environment where both attempts fail. -/
theorem c8_witness :
    (safeSendMessage ⟨SendOutcome.lastError "Extension context invalidated.",
        SendOutcome.lastError "boom"⟩).2
      = [SendAction.attempt 1, SendAction.ping, SendAction.wait 150, SendAction.attempt 2]
    ∧ (safeSendMessage ⟨SendOutcome.lastError "Extension context invalidated.",
        SendOutcome.lastError "boom"⟩).1.error
      = some "Failed to analyze text. Please refresh the page." :=
  ⟨(c8_context_invalidated_retry _ "Extension context invalidated." rfl (by decide)).1,
   (c8_context_invalidated_retry _ "Extension context invalidated." rfl (by decide)).2 "boom" rfl⟩

/-- C2: every text shorter than the minimum length (10) is answered with the
too-short error by `handleExplainText` — before any credential load or
provider call (empty effect trace) — and with the too-short response by
`handleAdvancedExplainText` — before any cache read or write (empty effect
trace, cache state unchanged). -/
theorem c2_too_short_short_circuits :
    ∀ (cfg : EmbConfig) (env : EmbEnv) (text : String) (forceRefresh : Bool) (level : String)
      (cacheSt : List (String × SWCacheItem AdvResponse)) (now : Nat),
      text.length < 10 →
      ((handleExplainText cfg env text).1.error = some "Text too short to analyze"
        ∧ (handleExplainText cfg env text).2 = [])
      ∧ ((handleAdvancedExplainText text forceRefresh level cacheSt now).1.explanation
            = "Text too short for meaningful analysis (minimum 10 characters)"
        ∧ (handleAdvancedExplainText text forceRefresh level cacheSt now).2.1 = []
        ∧ (handleAdvancedExplainText text forceRefresh level cacheSt now).2.2 = cacheSt) := by
  intro cfg env text forceRefresh level cacheSt now h
  have hcond : (text.isEmpty || decide (text.length < 10)) = true := by simp [h]
  refine ⟨⟨?_, ?_⟩, ?_, ?_, ?_⟩ <;>
    simp [handleExplainText, handleAdvancedExplainText, hcond]

/-- Witness for C2 at a concrete 5-character text. -/
theorem c2_witness :
    ((handleExplainText {} ⟨false, Except.error "e", Except.error "e", Except.error "e",
        Except.error "e"⟩ "short").1.error = some "Text too short to analyze"
      ∧ (handleExplainText {} ⟨false, Except.error "e", Except.error "e", Except.error "e",
        Except.error "e"⟩ "short").2 = [])
    ∧ ((handleAdvancedExplainText "short" false "detailed" [] 0).1.explanation
          = "Text too short for meaningful analysis (minimum 10 characters)"
      ∧ (handleAdvancedExplainText "short" false "detailed" [] 0).2.1 = []
      ∧ (handleAdvancedExplainText "short" false "detailed" [] 0).2.2 = []) :=
  c2_too_short_short_circuits {} _ "short" false "detailed" [] 0 (by decide)

/-- C9: a selection whose trimmed length is 8 or 9 passes the content
script's minimum-length gate (`MIN_SELECTION_LENGTH = 8`), so the request is
sent — yet the analysis host rejects every text shorter than 10, so such a
selection always comes back as a too-short error (and no provider runs). -/
theorem c9_gate_mismatch :
    ∀ (sel : String) (cfg : EmbConfig) (env : EmbEnv),
      8 ≤ (jsTrim sel).length → (jsTrim sel).length < 10 →
      selectionAccepted sel = true
      ∧ (handleExplainText cfg env (jsTrim sel)).1.error = some "Text too short to analyze"
      ∧ (handleExplainText cfg env (jsTrim sel)).2 = [] := by
  intro sel cfg env h8 h10
  have hcond : ((jsTrim sel).isEmpty || decide ((jsTrim sel).length < 10)) = true := by
    simp [h10]
  refine ⟨?_, ?_, ?_⟩
  · simp [selectionAccepted, MIN_SELECTION_LENGTH, h8]
  · simp [handleExplainText, hcond]
  · simp [handleExplainText, hcond]

/-- Witness for C9 at a concrete 8-character selection. -/
theorem c9_witness :
    selectionAccepted "abcdefgh" = true
    ∧ (handleExplainText {} ⟨false, Except.error "e", Except.error "e", Except.error "e",
        Except.error "e"⟩ (jsTrim "abcdefgh")).1.error = some "Text too short to analyze"
    ∧ (handleExplainText {} ⟨false, Except.error "e", Except.error "e", Except.error "e",
        Except.error "e"⟩ (jsTrim "abcdefgh")).2 = [] :=
  c9_gate_mismatch "abcdefgh" {} _ (by decide) (by decide)

/-- Appending to a nonempty string stays nonempty. -/
theorem strAppend_ne_empty (s t : String) (h : s ≠ "") : s ++ t ≠ "" := by
  intro he
  apply h
  have hd : s.data ++ t.data = ([] : List Char) := congrArg String.data he
  rcases List.append_eq_nil.mp hd with ⟨hs, _⟩
  cases s
  simp_all

/-- The tier-counting fold of the shared analyzer computes the three
`countP`s. -/
theorem sharedCounts_aux :
    ∀ (tokens : List String) (a b c : Nat),
      tokens.foldl
        (fun (acc : Nat × Nat × Nat) token =>
          (acc.1 + (if sharedBeginnerTerms.contains token then 1 else 0),
           acc.2.1 + (if sharedIntermediateTerms.contains token then 1 else 0),
           acc.2.2 + (if sharedAdvancedTerms.contains token then 1 else 0)))
        (a, b, c)
      = (a + tokens.countP (fun t => sharedBeginnerTerms.contains t),
         b + tokens.countP (fun t => sharedIntermediateTerms.contains t),
         c + tokens.countP (fun t => sharedAdvancedTerms.contains t)) := by
  intro tokens
  induction tokens with
  | nil => intro a b c; simp
  | cons t ts ih =>
    intro a b c
    simp only [List.foldl_cons, List.countP_cons, ih, Prod.mk.injEq]
    refine ⟨?_, ?_, ?_⟩ <;> omega

/-- C4 counterexample: on a concrete input, the standalone service worker's
`assessComplexity` answers `advanced` although the input contains no term of
any of the three fixed vocabulary tiers (the claimed rule would force
`beginner`): that implementation assigns complexity from average word and
sentence length, not from the vocabulary tiers. -/
theorem c4_counterexample :
    swAssessComplexity c4Text (swTokenize c4Text) = Complexity.advanced
    ∧ specTierComplexity sharedBeginnerTerms sharedIntermediateTerms sharedAdvancedTerms
        (swTokenize c4Text) = Complexity.beginner
    ∧ (∀ tier ∈ [sharedBeginnerTerms, sharedIntermediateTerms, sharedAdvancedTerms],
        ∀ t ∈ swTokenize c4Text, tier.contains t = false) :=
  ⟨by decide, by decide, by decide⟩

/-- C4 (amended): the shared analyzer's `assessComplexity` follows the
three-tier vocabulary rule exactly (any advanced-tier token forces
`advanced`, else intermediate-tier tokens outranking beginner-tier tokens
give `intermediate`, else `beginner`), and the embedded AI service's
`assessComplexity` follows the same rule for its own two term lists
(substring occurrences, with an empty beginner tier); the standalone
worker's analyzer instead uses average word/sentence length
(`c4_counterexample`). -/
theorem c4_amended_tier_rule :
    (∀ tokens : List String,
      sharedAssessComplexity tokens
        = specTierComplexity sharedBeginnerTerms sharedIntermediateTerms sharedAdvancedTerms
            tokens)
    ∧ (∀ text : String,
        (embAdvancedTerms.countP (fun t => strHas (jsLower text) t) > 0 →
          embeddedAssessComplexity text = Complexity.advanced)
        ∧ (embAdvancedTerms.countP (fun t => strHas (jsLower text) t) = 0 →
            embIntermediateTerms.countP (fun t => strHas (jsLower text) t) > 0 →
            embeddedAssessComplexity text = Complexity.intermediate)
        ∧ (embAdvancedTerms.countP (fun t => strHas (jsLower text) t) = 0 →
            embIntermediateTerms.countP (fun t => strHas (jsLower text) t) = 0 →
            embeddedAssessComplexity text = Complexity.beginner)) := by
  constructor
  · intro tokens
    unfold sharedAssessComplexity specTierComplexity
    rw [sharedCounts_aux tokens 0 0 0]
    simp only [Nat.zero_add]
    by_cases h : ∃ t ∈ tokens, sharedAdvancedTerms.contains t = true
    · have h1 : 0 < tokens.countP (fun t => sharedAdvancedTerms.contains t) :=
        List.countP_pos_iff.mpr h
      have h2 : tokens.any (fun t => sharedAdvancedTerms.contains t) = true :=
        List.any_eq_true.mpr h
      simp [h1, h2]
    · have h1 : tokens.countP (fun t => sharedAdvancedTerms.contains t) = 0 := by
        rw [List.countP_eq_zero]
        intro t ht
        exact fun hc => h ⟨t, ht, hc⟩
      have h2 : tokens.any (fun t => sharedAdvancedTerms.contains t) = false := by
        rw [List.any_eq_false]
        intro t ht
        exact fun hc => h ⟨t, ht, hc⟩
      simp [h1, h2]
  · intro text
    refine ⟨fun ha => ?_, fun ha hi => ?_, fun ha hi => ?_⟩
    · have h2 : embAdvancedTerms.any (fun t => strHas (jsLower text) t) = true :=
        List.any_eq_true.mpr (List.countP_pos_iff.mp ha)
      simp [embeddedAssessComplexity, h2]
    · have h2 : embAdvancedTerms.any (fun t => strHas (jsLower text) t) = false := by
        rw [List.any_eq_false]
        intro t ht hc
        rw [List.countP_eq_zero] at ha
        exact ha t ht hc
      have h3 : embIntermediateTerms.any (fun t => strHas (jsLower text) t) = true :=
        List.any_eq_true.mpr (List.countP_pos_iff.mp hi)
      simp [embeddedAssessComplexity, h2, h3]
    · have h2 : embAdvancedTerms.any (fun t => strHas (jsLower text) t) = false := by
        rw [List.any_eq_false]
        intro t ht hc
        rw [List.countP_eq_zero] at ha
        exact ha t ht hc
      have h3 : embIntermediateTerms.any (fun t => strHas (jsLower text) t) = false := by
        rw [List.any_eq_false]
        intro t ht hc
        rw [List.countP_eq_zero] at hi
        exact hi t ht hc
      simp [embeddedAssessComplexity, h2, h3]

/-- Witness for the amended C4 theorem on concrete inputs. -/
theorem c4_amended_witness :
    sharedAssessComplexity ["leverage"]
      = specTierComplexity sharedBeginnerTerms sharedIntermediateTerms sharedAdvancedTerms
          ["leverage"]
    ∧ embeddedAssessComplexity "an arbitrage strategy" = Complexity.advanced :=
  ⟨c4_amended_tier_rule.1 ["leverage"],
   (c4_amended_tier_rule.2 "an arbitrage strategy").1 (by decide)⟩

/-- Embeds `callProvider` never returns a `null` result for the typed provider set. -/
theorem aisCallProvider_ne_ok_none (cfg : AISConfig) (env : AISEnv) (p : Provider)
    (text : String) : aisCallProvider cfg env p text ≠ Except.ok none := by
  cases p <;> simp only [aisCallProvider]
  · cases env.chromeAICall <;> simp
  · cases truthyKey cfg.openaiApiKey <;> cases env.openaiCall <;> simp
  · cases truthyKey cfg.claudeApiKey <;> cases env.claudeCall <;> simp
  · cases truthyKey cfg.geminiApiKey <;> cases env.geminiCall <;> simp
  · simp

/-- The provider loop succeeds with a built-in or local source when every
candidate is `chrome-ai` or `local`, `local` is among them, and fallback is
enabled. -/
theorem aisExplainGo_ok (cfg : AISConfig) (env : AISEnv) (text : String)
    (hfb : cfg.fallbackEnabled = true) :
    ∀ ps : List Provider,
      (∀ p ∈ ps, p = Provider.chromeAI ∨ p = Provider.localProv) →
      Provider.localProv ∈ ps →
      ∃ r, (aisExplainGo cfg env text ps).1 = Except.ok r
        ∧ (r.source = Provider.chromeAI ∨ r.source = Provider.localProv) := by
  intro ps
  induction ps with
  | nil => intro _ hl; exact absurd hl (List.not_mem_nil _)
  | cons p rest ih =>
    intro hall hl
    rcases hall p (List.mem_cons_self p rest) with hp | hp <;> subst hp
    · cases hc : env.chromeAICall with
      | ok t =>
        refine ⟨⟨t, 9/10, Provider.chromeAI, aisAssessComplexity text⟩, ?_, Or.inl rfl⟩
        simp [aisExplainGo, aisCallProvider, hc]
      | error e =>
        have hrest : Provider.localProv ∈ rest := by
          rcases List.mem_cons.mp hl with h | h
          · exact absurd h (by decide)
          · exact h
        obtain ⟨r, hr, hsrc⟩ := ih (fun q hq => hall q (List.mem_cons_of_mem _ hq)) hrest
        refine ⟨r, ?_, hsrc⟩
        simp [aisExplainGo, aisCallProvider, hc, hfb, hr]
    · refine ⟨useLocalAnalysisAIS text, ?_, Or.inr rfl⟩
      simp [aisExplainGo, aisCallProvider]

/-- With no remote credential configured, every provider in the computed
priority is `chrome-ai` or `local`. -/
theorem priority_builtin_or_local (cfg : AISConfig) (env : AISEnv)
    (hko : truthyKey cfg.openaiApiKey = false) (hkc : truthyKey cfg.claudeApiKey = false)
    (hkg : truthyKey cfg.geminiApiKey = false) :
    ∀ p ∈ getProviderPriority cfg env,
      p = Provider.chromeAI ∨ p = Provider.localProv := by
  intro p hp
  simp only [getProviderPriority] at hp
  have hav := (List.mem_filter.mp hp).2
  cases p
  · exact Or.inl rfl
  · rw [aisAvailable] at hav; rw [hko] at hav; exact absurd hav (by decide)
  · rw [aisAvailable] at hav; rw [hkc] at hav; exact absurd hav (by decide)
  · rw [aisAvailable] at hav; rw [hkg] at hav; exact absurd hav (by decide)
  · exact Or.inr rfl

/-- Embeds `local` is always in the computed priority. -/
theorem priority_local_mem (cfg : AISConfig) (env : AISEnv) :
    Provider.localProv ∈ getProviderPriority cfg env := by
  simp only [getProviderPriority]
  exact List.mem_filter.mpr ⟨by simp, rfl⟩

/-- C1: when every remote provider is unavailable or cloud AI is disabled,
`explainFinancialText` produces a result without throwing, and its source is
the built-in (`chrome-ai`) or local provider, never a remote one.  For the
part_002 `AIService` this holds under `fallbackEnabled` — the constructor
default; the fallback-disabled behaviour is the subject of C10.  The service
worker's `EmbeddedAIService.explainFinancialText` catches every failure, so
it is embedded as a total function (it never throws, whatever the
configuration), and the local analysis path in particular always produces a
result with a non-empty explanation, tagged `source: 'local'`. -/
theorem c1_degrades_to_builtin_or_local :
    (∀ (cfg : AISConfig) (env : AISEnv) (text : String),
      cfg.fallbackEnabled = true →
      truthyKey cfg.openaiApiKey = false →
      truthyKey cfg.claudeApiKey = false →
      truthyKey cfg.geminiApiKey = false →
      ∃ r, (explainFinancialTextAIS cfg env text).1 = Except.ok r
        ∧ (r.source = Provider.chromeAI ∨ r.source = Provider.localProv))
    ∧ (∀ (cfg : EmbConfig) (env : EmbEnv) (text : String),
      (cfg.enableCloudAI = false
        ∨ (truthyKey cfg.openaiApiKey = false ∧ truthyKey cfg.claudeApiKey = false
            ∧ truthyKey cfg.geminiApiKey = false)) →
      ((embeddedExplainT cfg env text).1.source = Provider.chromeAI
        ∨ (embeddedExplainT cfg env text).1.source = Provider.localProv))
    ∧ (∀ text : String,
        (embUseLocalAnalysis text).source = Provider.localProv
        ∧ (embUseLocalAnalysis text).text ≠ "") := by
  refine ⟨?_, ?_, ?_⟩
  · intro cfg env text hfb hko hkc hkg
    exact aisExplainGo_ok cfg env text hfb (getProviderPriority cfg env)
      (priority_builtin_or_local cfg env hko hkc hkg) (priority_local_mem cfg env)
  · intro cfg env text hcase
    rcases env with ⟨ce, cc, oc, cl, gc⟩
    rcases hcase with hcloud | ⟨hko, hkc, hkg⟩
    · cases ce <;> cases cc <;>
        simp [embeddedExplainT, hcloud, embUseLocalAnalysis]
    · cases hcloud : cfg.enableCloudAI <;> cases ce <;> cases cc <;>
        simp [embeddedExplainT, embChainOpenai, embChainClaude, embChainGemini,
          hcloud, hko, hkc, hkg, embUseLocalAnalysis]
  · intro text
    refine ⟨rfl, ?_⟩
    simp only [embUseLocalAnalysis]
    split
    · refine strAppend_ne_empty _ _ (strAppend_ne_empty _ _ (strAppend_ne_empty _ _ ?_))
      decide
    · decide

/-- Witness for C1 at a concrete configuration and environment (cloud
disabled, Chrome AI absent, no keys). -/
theorem c1_witness :
    (∃ r, (explainFinancialTextAIS c3Cfg c3Env "what is inflation").1 = Except.ok r
      ∧ (r.source = Provider.chromeAI ∨ r.source = Provider.localProv))
    ∧ ((embeddedExplainT {} ⟨false, Except.error "e", Except.error "e", Except.error "e",
          Except.error "e"⟩ "what is inflation").1.source = Provider.chromeAI
        ∨ (embeddedExplainT {} ⟨false, Except.error "e", Except.error "e", Except.error "e",
          Except.error "e"⟩ "what is inflation").1.source = Provider.localProv)
    ∧ (embUseLocalAnalysis "what is inflation").source = Provider.localProv :=
  ⟨c1_degrades_to_builtin_or_local.1 c3Cfg c3Env "what is inflation" rfl (by decide)
      (by decide) (by decide),
   c1_degrades_to_builtin_or_local.2.1 {} _ "what is inflation" (Or.inl rfl),
   (c1_degrades_to_builtin_or_local.2.2 "what is inflation").1⟩

/-- C10: with `fallbackEnabled: false`, at most one provider is ever
attempted (a provider call either succeeds, ending the loop, or throws, and
the error is rethrown instead of advancing), and when the first provider of
the priority list throws, that error propagates out of
`explainFinancialText` and no further provider — including the
always-available local provider — is attempted. -/
theorem c10_no_fallback_first_error_propagates :
    ∀ (cfg : AISConfig) (env : AISEnv) (text : String),
      cfg.fallbackEnabled = false →
      ((explainFinancialTextAIS cfg env text).2.length ≤ 1)
      ∧ (∀ (p : Provider) (ps : List Provider) (e : String),
          getProviderPriority cfg env = p :: ps →
          aisCallProvider cfg env p text = Except.error e →
          (explainFinancialTextAIS cfg env text).1 = Except.error e
          ∧ (explainFinancialTextAIS cfg env text).2 = [p]) := by
  intro cfg env text hfb
  constructor
  · unfold explainFinancialTextAIS
    cases hpr : getProviderPriority cfg env with
    | nil => simp [aisExplainGo]
    | cons p rest =>
      cases hc : aisCallProvider cfg env p text with
      | ok o =>
        cases o with
        | some r => simp [aisExplainGo, hc]
        | none => exact absurd hc (aisCallProvider_ne_ok_none cfg env p text)
      | error e => simp [aisExplainGo, hc, hfb]
  · intro p ps e hpr hc
    unfold explainFinancialTextAIS
    rw [hpr]
    constructor <;> simp [aisExplainGo, hc, hfb]

/-- Witness for C10: fallback disabled, Chrome AI available but failing —
the error propagates and only the first candidate was attempted. -/
theorem c10_witness :
    (explainFinancialTextAIS { fallbackEnabled := false } c3Env "some text").1
        = Except.error "chrome-ai failed"
    ∧ (explainFinancialTextAIS { fallbackEnabled := false } c3Env "some text").2
        = [Provider.chromeAI] :=
  (c10_no_fallback_first_error_propagates { fallbackEnabled := false } c3Env "some text"
      rfl).2 Provider.chromeAI [Provider.chromeAI, Provider.localProv] "chrome-ai failed"
    (by decide) (by decide)

/-- A filter that drops at least one element shortens the list. -/
theorem filter_length_lt {α : Type} (l : List α) (p : α → Bool) (x : α)
    (hx : x ∈ l) (hp : p x = false) : (l.filter p).length < l.length := by
  rw [← List.countP_eq_length_filter]
  have h1 : l.countP p + l.countP (fun a => !p a) = l.length := by
    simpa using (List.length_eq_countP_add_countP (p := p) (l := l)).symm
  have h2 : 0 < l.countP (fun a => !p a) :=
    List.countP_pos_iff.mpr ⟨x, hx, by simp [hp]⟩
  omega

/-- Embeds `enforceMemoryLimit` always leaves at most `maxMemorySize` entries. -/
theorem enforce_length {V : Type} (m : List (CEntry V)) :
    (enforceMemoryLimit m).1.length ≤ maxMemorySize := by
  unfold enforceMemoryLimit
  split
  · simpa
  · rename_i h
    simp only
    set sorted := List.insertionSort (fun (a b : CEntry V) => a.lastAccessed ≤ b.lastAccessed) m
      with hsorted
    set toRemove := sorted.take (m.length - maxMemorySize) with htr
    have hperm : List.Perm sorted m :=
      List.perm_insertionSort (fun (a b : CEntry V) => a.lastAccessed ≤ b.lastAccessed) m
    have hslen : sorted.length = m.length := hperm.length_eq
    have htlen : toRemove.length = m.length - maxMemorySize := by
      rw [htr, List.length_take, hslen]
      omega
    set q := fun (e : CEntry V) => (toRemove.map (fun e => e.key)).contains e.key with hq
    have hql : toRemove.countP q = toRemove.length := by
      rw [List.countP_eq_length]
      intro e he
      exact List.elem_eq_true_of_mem (List.mem_map_of_mem (fun e => e.key) he)
    have hcs : sorted.countP q
        = toRemove.countP q + (sorted.drop (m.length - maxMemorySize)).countP q := by
      conv_lhs => rw [← List.take_append_drop (m.length - maxMemorySize) sorted]
      rw [List.countP_append]
    have hcm : m.countP q = sorted.countP q := (hperm.countP_eq q).symm
    have hfl : (m.filter (fun e => !q e)).length = m.countP (fun e => !q e) :=
      (List.countP_eq_length_filter _ _).symm
    have hsum : m.countP q + m.countP (fun e => !q e) = m.length := by
      simpa using (List.length_eq_countP_add_countP (p := q) (l := m)).symm
    simp only [maxMemorySize] at *
    rw [hfl]
    omega

/-- Every entry evicted by `enforceMemoryLimit` has a `lastAccessed` at most
that of every entry remaining in the tier. -/
theorem enforce_min {V : Type} (m : List (CEntry V)) :
    ∀ e ∈ (enforceMemoryLimit m).2, ∀ e2 ∈ (enforceMemoryLimit m).1,
      e.lastAccessed ≤ e2.lastAccessed := by
  unfold enforceMemoryLimit
  split
  · simp
  · intro e he e2 he2
    simp only at he he2
    have hperm := List.perm_insertionSort
      (fun (a b : CEntry V) => a.lastAccessed ≤ b.lastAccessed) m
    have hsorted := List.sorted_insertionSort
      (fun (a b : CEntry V) => a.lastAccessed ≤ b.lastAccessed) m
    obtain ⟨he2m, he2p⟩ := List.mem_filter.mp he2
    have he2s : e2 ∈ List.insertionSort
        (fun (a b : CEntry V) => a.lastAccessed ≤ b.lastAccessed) m := hperm.mem_iff.mpr he2m
    rw [← List.take_append_drop (m.length - maxMemorySize)
      (List.insertionSort (fun (a b : CEntry V) => a.lastAccessed ≤ b.lastAccessed) m)]
      at hsorted he2s
    rcases List.mem_append.mp he2s with hin | hin
    · exfalso
      have hct : (((List.insertionSort
          (fun (a b : CEntry V) => a.lastAccessed ≤ b.lastAccessed) m).take
          (m.length - maxMemorySize)).map (fun e => e.key)).contains e2.key = true :=
        List.elem_eq_true_of_mem (List.mem_map_of_mem (fun e => e.key) hin)
      rw [hct] at he2p
      simp at he2p
    · exact (List.pairwise_append.mp hsorted).2.2 e he e2 hin

/-- Any sequence of `set`s keeps the part_002 memory tier within bound. -/
theorem applyCacheSets_aux {V : Type} :
    ∀ (ops : List (String × V × Option Nat × Nat)) (m : List (CEntry V)),
      m.length ≤ maxMemorySize →
      (ops.foldl (fun m op => (cacheSetMem m op.1 op.2.1 op.2.2.1 op.2.2.2).1) m).length
        ≤ maxMemorySize := by
  intro ops
  induction ops with
  | nil => intro m h; exact h
  | cons op rest ih =>
    intro m _
    exact ih _ (enforce_length _)

/-- Embeds `mapSetAssoc` preserves nonempty keys and grows by at most one entry. -/
theorem swMapSetAssoc_facts {V : Type} (c : List (String × SWCacheItem V)) (k : String)
    (it : SWCacheItem V) (hkeys : ∀ p ∈ c, p.1.isEmpty = false) (hk : k.isEmpty = false) :
    (∀ p ∈ mapSetAssoc c k it, p.1.isEmpty = false)
    ∧ (mapSetAssoc c k it).length ≤ c.length + 1 := by
  unfold mapSetAssoc
  split
  · refine ⟨?_, by simp⟩
    intro p hp
    obtain ⟨q, hq, hfq⟩ := List.mem_map.mp hp
    by_cases hqk : q.1 = k
    · rw [if_pos hqk] at hfq
      rw [← hfq]
      exact hk
    · rw [if_neg hqk] at hfq
      rw [← hfq]
      exact hkeys q hq
  · refine ⟨?_, by simp⟩
    intro p hp
    rcases List.mem_append.mp hp with h | h
    · exact hkeys p h
    · rw [List.mem_singleton.mp h]
      exact hk

/-- One service-worker `set` keeps the bound (for nonempty keys). -/
theorem swCacheSet_step {V : Type} (c : List (String × SWCacheItem V)) (k : String) (v : V)
    (ttl now : Nat) (hc : c.length ≤ 100) (hkeys : ∀ p ∈ c, p.1.isEmpty = false)
    (hk : k.isEmpty = false) :
    (swCacheSet c k v ttl now).length ≤ 100
    ∧ (∀ p ∈ swCacheSet c k v ttl now, p.1.isEmpty = false) := by
  obtain ⟨hkeys1, hlen1⟩ := swMapSetAssoc_facts c k ⟨v, now, ttl⟩ hkeys hk
  simp only [swCacheSet]
  split
  · rename_i hgt
    cases hc1 : mapSetAssoc c k ⟨v, now, ttl⟩ with
    | nil =>
      rw [hc1] at hgt
      simp at hgt
    | cons hd tl =>
      obtain ⟨k0, it0⟩ := hd
      rw [hc1] at hkeys1 hlen1 hgt
      have hk0 : k0.isEmpty = false := hkeys1 (k0, it0) (List.mem_cons_self _ _)
      simp only [swEvictFirst, hk0, Bool.false_eq_true, if_false]
      constructor
      · have hlt : (((k0, it0) :: tl).filter (fun p => !decide (p.1 = k0))).length
            < ((k0, it0) :: tl).length :=
          filter_length_lt _ _ (k0, it0) (List.mem_cons_self _ _) (by simp)
        simp only [List.length_cons] at *
        omega
      · intro p hp
        exact hkeys1 p (List.mem_of_mem_filter hp)
  · exact ⟨by omega, hkeys1⟩

/-- Any sequence of `set`s with nonempty keys keeps the service-worker
memory cache within bound. -/
theorem swApplySets_aux {V : Type} :
    ∀ (ops : List (String × V × Nat × Nat)) (c : List (String × SWCacheItem V)),
      (∀ op ∈ ops, op.1.isEmpty = false) →
      (∀ p ∈ c, p.1.isEmpty = false) → c.length ≤ 100 →
      (ops.foldl (fun c op => swCacheSet c op.1 op.2.1 op.2.2.1 op.2.2.2) c).length ≤ 100 := by
  intro ops
  induction ops with
  | nil => intro c _ _ h; exact h
  | cons op rest ih =>
    intro c hops hkeys hlen
    have hstep := swCacheSet_step c op.1 op.2.1 op.2.2.1 op.2.2.2 hlen hkeys
      (hops op (List.mem_cons_self op rest))
    exact ih _ (fun q hq => hops q (List.mem_cons_of_mem _ hq)) hstep.2 hstep.1

/-- C5: for every sequence of `set` operations, the part_002 memory tier
never exceeds `maxMemorySize = 100` entries after an insertion completes;
whenever an insertion forces eviction, every evicted entry has the oldest
`lastAccessed` among the entries present after the insertion (each evicted
entry's `lastAccessed` is at most that of every remaining entry).  The
standalone service worker's separate in-memory cache also keeps its 100-entry
bound for every sequence of sets with nonempty keys (the only keys the
worker generates); its eviction, however, removes the first key in
insertion order — it has no `lastAccessed` field at all. -/
theorem c5_memory_tier_eviction :
    (∀ (V : Type) (ops : List (String × V × Option Nat × Nat)),
        (applyCacheSets ops).length ≤ maxMemorySize)
    ∧ (∀ (V : Type) (m : List (CEntry V)) (key : String) (v : V) (ttl : Option Nat) (now : Nat),
        (cacheSetMem m key v ttl now).1.length ≤ maxMemorySize
        ∧ (∀ e ∈ (cacheSetMem m key v ttl now).2, ∀ e2 ∈ (cacheSetMem m key v ttl now).1,
            e.lastAccessed ≤ e2.lastAccessed))
    ∧ (∀ (V : Type) (ops : List (String × V × Nat × Nat)),
        (∀ op ∈ ops, op.1.isEmpty = false) →
        (swApplySets ops).length ≤ 100) := by
  refine ⟨?_, ?_, ?_⟩
  · intro V ops
    exact applyCacheSets_aux ops [] (by simp [maxMemorySize])
  · intro V m key v ttl now
    exact ⟨enforce_length _, enforce_min _⟩
  · intro V ops hops
    exact swApplySets_aux ops [] hops (by simp) (by simp)

/-- Witness for C5 at concrete inputs. -/
theorem c5_witness :
    ((cacheSetMem ([] : List (CEntry Nat)) "k1" 7 none 5).1.length ≤ maxMemorySize
      ∧ ∀ e ∈ (cacheSetMem ([] : List (CEntry Nat)) "k1" 7 none 5).2,
          ∀ e2 ∈ (cacheSetMem ([] : List (CEntry Nat)) "k1" 7 none 5).1,
            e.lastAccessed ≤ e2.lastAccessed)
    ∧ (swApplySets [("k1", (1 : Nat), 1000, 0)]).length ≤ 100 :=
  ⟨c5_memory_tier_eviction.2.1 Nat [] "k1" 7 none 5,
   c5_memory_tier_eviction.2.2 Nat [("k1", 1, 1000, 0)] (by decide)⟩

/-- Embeds `sendsOf` distributes over append. -/
theorem sendsOf_append (evs evs2 : List PortEv) :
    sendsOf (evs ++ evs2) = sendsOf evs ++ sendsOf evs2 := by
  simp [sendsOf]

theorem resCount_append (c : Nat) (l1 l2 : List (Nat × ResKind)) :
    resCount c (l1 ++ l2) = resCount c l1 + resCount c l2 := by
  simp [resCount, List.countP_append]

theorem resCount_single (c d : Nat) (k : ResKind) :
    resCount c [(d, k)] = if d = c then 1 else 0 := by
  by_cases h : d = c <;> simp [resCount, List.countP_cons, h]

theorem resCount_disconnect_map (c : Nat) (pending : List Nat) (h : pending.Nodup) :
    resCount c (pending.map (fun d => (d, ResKind.disconnected)))
      = if c ∈ pending then 1 else 0 := by
  simp only [resCount, List.countP_map]
  split
  · rename_i hm
    have : (List.countP ((fun e => decide (e.1 = c)) ∘ fun d => (d, ResKind.disconnected)) pending)
        = List.count c pending := by
      simp [List.count, Function.comp]
      rfl
    rw [this]
    exact List.count_eq_one_of_mem h hm
  · rename_i hm
    have : (List.countP ((fun e => decide (e.1 = c)) ∘ fun d => (d, ResKind.disconnected)) pending)
        = List.count c pending := by
      simp [List.count, Function.comp]
      rfl
    rw [this]
    exact List.count_eq_zero_of_not_mem hm

theorem portInv_step (evs : List PortEv) (e : PortEv) (st : PortState)
    (hnd : (sendsOf (evs ++ [e])).Nodup) (hinv : portInv evs st) :
    portInv (evs ++ [e]) (portMsgStep st e) := by
  obtain ⟨h1, h2, h3, h4, h5, h6⟩ := hinv
  cases e with
  | send c =>
    have hsends : sendsOf (evs ++ [PortEv.send c]) = sendsOf evs ++ [c] := by
      simp [sendsOf_append, sendsOf]
    rw [hsends] at hnd
    simp only [portInv, hsends]
    have hcnew : c ∉ sendsOf evs := by
      have := List.disjoint_of_nodup_append hnd
      intro hmem
      exact this hmem (List.mem_singleton_self c)
    have hcp : c ∉ st.pending := fun hp => hcnew (h2 c hp)
    simp only [portMsgStep, if_neg hcp]
    refine ⟨?_, ?_, ?_, ?_, ?_, ?_⟩
    · simp only [List.nodup_append]
      exact ⟨h1, List.nodup_singleton c, fun d hd hdc => hcp ((List.mem_singleton.mp hdc) ▸ hd)⟩
    · intro d hd
      rcases List.mem_append.mp hd with hd | hd
      · exact List.mem_append_left _ (h2 d hd)
      · exact List.mem_append_right _ hd
    · intro d hd
      rcases List.mem_append.mp hd with hd | hd
      · exact h3 d hd
      · rw [List.mem_singleton.mp hd]
        exact h5 c hcnew
    · intro d hds hdp
      rcases List.mem_append.mp hds with hds | hds
      · refine h4 d hds (fun hdpend => hdp ?_)
        exact List.mem_append_left _ hdpend
      · exact absurd (List.mem_append_right st.pending hds) hdp
    · intro d hds
      refine h5 d (fun hmem => hds ?_)
      exact List.mem_append_left _ hmem
    · intro d p hdp
      exact List.mem_append_left _ (h6 d p hdp)
  | response c p =>
    have hsends : sendsOf (evs ++ [PortEv.response c p]) = sendsOf evs := by
      simp [sendsOf_append, sendsOf]
    rw [hsends] at hnd
    simp only [portInv, hsends]
    by_cases hcp : c ∈ st.pending
    · simp only [portMsgStep, if_pos hcp]
      refine ⟨h1.erase c, ?_, ?_, ?_, ?_, ?_⟩
      · intro d hd
        exact h2 d (List.mem_of_mem_erase hd)
      · intro d hd
        obtain ⟨hdc, hdpend⟩ := h1.mem_erase_iff.mp hd
        rw [resCount_append, resCount_single, if_neg (fun hh => hdc hh.symm), h3 d hdpend]
      · intro d hds hdp
        by_cases hdc : d = c
        · subst hdc
          rw [resCount_append, resCount_single, if_pos rfl, h3 d hcp]
        · have hdpend : d ∉ st.pending := fun hh => hdp (h1.mem_erase_iff.mpr ⟨hdc, hh⟩)
          rw [resCount_append, resCount_single, if_neg (fun hh => hdc hh.symm),
            h4 d hds hdpend]
      · intro d hds
        have hdc : d ≠ c := fun hh => hds (hh ▸ h2 c hcp)
        rw [resCount_append, resCount_single, if_neg (fun hh => hdc hh.symm), h5 d hds]
      · intro d q hdq
        rcases List.mem_append.mp hdq with hdq | hdq
        · exact List.mem_append_left _ (h6 d q hdq)
        · have hh := List.mem_singleton.mp hdq
          have hdc : d = c := congrArg Prod.fst hh
          have hqp : q = p := ResKind.answered.inj (congrArg Prod.snd hh)
          subst hdc
          subst hqp
          exact List.mem_append_right _ (List.mem_singleton_self _)
    · simp only [portMsgStep, if_neg hcp]
      refine ⟨h1, h2, h3, h4, h5, fun d q hdq => List.mem_append_left _ (h6 d q hdq)⟩
  | timerFire c =>
    have hsends : sendsOf (evs ++ [PortEv.timerFire c]) = sendsOf evs := by
      simp [sendsOf_append, sendsOf]
    rw [hsends] at hnd
    simp only [portInv, hsends]
    by_cases hcp : c ∈ st.pending
    · simp only [portMsgStep, if_pos hcp]
      refine ⟨h1.erase c, ?_, ?_, ?_, ?_, ?_⟩
      · intro d hd
        exact h2 d (List.mem_of_mem_erase hd)
      · intro d hd
        obtain ⟨hdc, hdpend⟩ := h1.mem_erase_iff.mp hd
        rw [resCount_append, resCount_single, if_neg (fun hh => hdc hh.symm), h3 d hdpend]
      · intro d hds hdp
        by_cases hdc : d = c
        · subst hdc
          rw [resCount_append, resCount_single, if_pos rfl, h3 d hcp]
        · have hdpend : d ∉ st.pending := fun hh => hdp (h1.mem_erase_iff.mpr ⟨hdc, hh⟩)
          rw [resCount_append, resCount_single, if_neg (fun hh => hdc hh.symm),
            h4 d hds hdpend]
      · intro d hds
        have hdc : d ≠ c := fun hh => hds (hh ▸ h2 c hcp)
        rw [resCount_append, resCount_single, if_neg (fun hh => hdc hh.symm), h5 d hds]
      · intro d q hdq
        rcases List.mem_append.mp hdq with hdq | hdq
        · exact List.mem_append_left _ (h6 d q hdq)
        · exfalso
          have hh := List.mem_singleton.mp hdq
          have := congrArg Prod.snd hh
          simp at this
    · simp only [portMsgStep, if_neg hcp]
      refine ⟨h1, h2, h3, h4, h5, fun d q hdq => List.mem_append_left _ (h6 d q hdq)⟩
  | disconnect =>
    have hsends : sendsOf (evs ++ [PortEv.disconnect]) = sendsOf evs := by
      simp [sendsOf_append, sendsOf]
    rw [hsends] at hnd
    simp only [portInv, hsends]
    simp only [portMsgStep]
    refine ⟨List.nodup_nil, by simp, by simp, ?_, ?_, ?_⟩
    · intro d hds _
      rw [resCount_append, resCount_disconnect_map d st.pending h1]
      by_cases hdp : d ∈ st.pending
      · rw [if_pos hdp, h3 d hdp]
      · rw [if_neg hdp, h4 d hds hdp]
    · intro d hds
      have hdp : d ∉ st.pending := fun hh => hds (h2 d hh)
      rw [resCount_append, resCount_disconnect_map d st.pending h1, if_neg hdp, h5 d hds]
    · intro d q hdq
      rcases List.mem_append.mp hdq with hdq | hdq
      · exact List.mem_append_left _ (h6 d q hdq)
      · exfalso
        obtain ⟨x, _, hx⟩ := List.mem_map.mp hdq
        have := congrArg Prod.snd hx
        simp at this

theorem portInv_run : ∀ evs : List PortEv, (sendsOf evs).Nodup → portInv evs (runPort evs) := by
  intro evs
  induction evs using List.reverseRecOn with
  | nil =>
    intro _
    refine ⟨List.nodup_nil, by simp [runPort], by simp [runPort], ?_, ?_, by simp [runPort]⟩
    · intro c hc
      simp [sendsOf] at hc
    · intro c _
      simp [runPort, resCount]
  | append_singleton pre e ih =>
    intro hnd
    have hpre : (sendsOf pre).Nodup := by
      rw [sendsOf_append] at hnd
      exact List.Nodup.of_append_left hnd
    have hrun : runPort (pre ++ [e]) = portMsgStep (runPort pre) e := by
      simp [runPort, List.foldl_append]
    rw [hrun]
    exact portInv_step pre e (runPort pre) hnd (ih hpre)

/-- C6: for every event trace with distinct send correlation ids, each
pending request is resolved at most once (still-pending requests have no
resolution yet; requests no longer pending were resolved exactly once — by
the first of matched response, timeout or disconnect); and every `answered`
resolution delivering payload `p` to correlation id `c` comes from a
response event carrying exactly `c` and `p` — two concurrent requests whose
responses arrive in reverse order each resolve with their own payload,
never swapped (`c6_witness`). -/
theorem c6_exactly_one_resolution :
    ∀ evs : List PortEv, (sendsOf evs).Nodup →
      (∀ c : Nat, resCount c (runPort evs).log ≤ 1)
      ∧ (∀ c ∈ sendsOf evs, c ∈ (runPort evs).pending → resCount c (runPort evs).log = 0)
      ∧ (∀ c ∈ sendsOf evs, c ∉ (runPort evs).pending → resCount c (runPort evs).log = 1)
      ∧ (∀ (c p : Nat), (c, ResKind.answered p) ∈ (runPort evs).log →
          PortEv.response c p ∈ evs) := by
  intro evs hnd
  obtain ⟨h1, h2, h3, h4, h5, h6⟩ := portInv_run evs hnd
  refine ⟨?_, fun c _ hp => h3 c hp, h4, h6⟩
  intro c
  by_cases hs : c ∈ sendsOf evs
  · by_cases hp : c ∈ (runPort evs).pending
    · rw [h3 c hp]
      omega
    · rw [h4 c hs hp]
  · rw [h5 c hs]
    omega

/-- Witness for C6: the reverse-order scenario — send 1, send 2, response
for 2, response for 1 — resolves each request exactly once with its own
payload. -/
theorem c6_witness :
    resCount 1 (runPort c6Demo).log = 1
    ∧ resCount 2 (runPort c6Demo).log = 1
    ∧ (runPort c6Demo).log = [(2, ResKind.answered 20), (1, ResKind.answered 10)] :=
  ⟨(c6_exactly_one_resolution c6Demo (by decide)).2.2.1 1 (by decide) (by decide),
   (c6_exactly_one_resolution c6Demo (by decide)).2.2.1 2 (by decide) (by decide),
   by decide⟩

end MainTheorems
